import Mathlib

/-!
# RAMCloud: Infiniband RC transport header and RPC wire schema

A shallow embedding of `src/InfRCTransport.h` and `src/shared/rcrpc.h`.

* Machine integers are natural numbers or integers with explicit reduction
  modulo `2 ^ w`.
* C struct declarations are embedded as data (`StructDecl`) and laid out by the
  usual C rule: every member is placed at the next multiple of its alignment,
  or immediately after its predecessor when the struct is declared
  `__attribute__((packed))`.
* Definitions come first, theorems afterwards.
-/

namespace RAMCloud

/-! ## Machine integers -/

/-- Conversion of an integer value to `uint16_t`. -/
def toUint16 (z : Int) : Nat := (z % 65536).toNat

/-- Conversion of an integer value to `uint32_t`. -/
def toUint32 (z : Int) : Nat := (z % 4294967296).toNat

/-- Conversion of an integer value to `uint64_t`. -/
def toUint64 (z : Int) : Nat := (z % 18446744073709551616).toNat

/-- Smallest value of the C type `int` (32 bit). -/
def INT_MIN : Int := -2147483648

/-- Largest value of the C type `int` (32 bit). -/
def INT_MAX : Int := 2147483647

/-- Result of a signed `int` computation: `none` when the mathematical result
is not representable (signed overflow). -/
def intChecked (z : Int) : Option Int :=
  if INT_MIN ≤ z ∧ z ≤ INT_MAX then some z else none

/-- Signed `int` multiplication. -/
def intMul (a b : Int) : Option Int := intChecked (a * b)

/-- Signed `int` addition. -/
def intAdd (a b : Int) : Option Int := intChecked (a + b)

/-- Unary minus on `int`. -/
def intNeg (a : Int) : Option Int := intChecked (-a)

/-- Unary minus on `unsigned long long` (64 bit): wraps modulo `2 ^ 64`. -/
def ullNeg (x : Nat) : Nat :=
  (18446744073709551616 - x % 18446744073709551616) % 18446744073709551616

/-! ## Object representation of scalars -/

/-- Byte order of the host. -/
inductive ByteOrder
  | littleEndian
  | bigEndian
  deriving DecidableEq, Repr

/-- The `w` low-order base-256 digits of `x`, least significant first. -/
def encodeLE : Nat → Nat → List Nat
  | 0, _ => []
  | w + 1, x => (x % 256) :: encodeLE w (x / 256)

/-- Value of a list of base-256 digits, least significant first. -/
def decodeLE : List Nat → Nat
  | [] => 0
  | b :: bs => b + 256 * decodeLE bs

/-- Object representation (the bytes in memory) of a `w`-byte unsigned scalar. -/
def objectRep (bo : ByteOrder) (w x : Nat) : List Nat :=
  match bo with
  | .littleEndian => encodeLE w x
  | .bigEndian => (encodeLE w x).reverse

/-- Value of an unsigned scalar given its object representation. -/
def objectVal (bo : ByteOrder) (bs : List Nat) : Nat :=
  match bo with
  | .littleEndian => decodeLE bs
  | .bigEndian => decodeLE bs.reverse

/-! ## C types and struct layout -/

/-- The C types that occur in the two headers. -/
inductive CType
  | uint16_t
  | uint32_t
  | uint64_t
  | char
  | array (elem : CType) (n : Nat)
  | structRef (name : String) (size align : Nat)
  deriving DecidableEq, Repr

/-- Value of `sizeof` for a type. -/
def CType.sizeof : CType → Nat
  | .uint16_t => 2
  | .uint32_t => 4
  | .uint64_t => 8
  | .char => 1
  | .array e n => n * e.sizeof
  | .structRef _ s _ => s

/-- Natural alignment of a type. -/
def CType.alignof : CType → Nat
  | .uint16_t => 2
  | .uint32_t => 4
  | .uint64_t => 8
  | .char => 1
  | .array e _ => e.alignof
  | .structRef _ _ a => a

/-- Whether the type is a zero-length array such as `char buf[0]`. -/
def CType.isZeroLengthArray : CType → Bool
  | .array _ 0 => true
  | _ => false

/-- One member of a struct. -/
structure Field where
  name : String
  type : CType
  deriving DecidableEq, Repr

/-- A struct (or class) declaration: its name, whether it carries
`__attribute__((packed))`, and its data members in declaration order. -/
structure StructDecl where
  name : String
  packed : Bool
  fields : List Field
  deriving DecidableEq, Repr

/-- Round `n` up to the next multiple of `a`. -/
def alignUp (n a : Nat) : Nat := (n + a - 1) / a * a

/-- Alignment applied to a member. -/
def Field.alignIn (packed : Bool) (f : Field) : Nat :=
  if packed then 1 else f.type.alignof

/-- Offsets of the members, starting from the running offset `cur`. -/
def layoutOffsets (packed : Bool) : Nat → List Field → List Nat
  | _, [] => []
  | cur, f :: fs =>
    let off := alignUp cur (f.alignIn packed)
    off :: layoutOffsets packed (off + f.type.sizeof) fs

/-- Offset just past the last member. -/
def layoutEnd (packed : Bool) : Nat → List Field → Nat
  | cur, [] => cur
  | cur, f :: fs =>
    layoutEnd packed (alignUp cur (f.alignIn packed) + f.type.sizeof) fs

/-- Offsets of the members of a struct. -/
def StructDecl.offsets (s : StructDecl) : List Nat :=
  layoutOffsets s.packed 0 s.fields

/-- Alignment of a struct. -/
def StructDecl.alignof (s : StructDecl) : Nat :=
  s.fields.foldl (fun a f => max a (f.alignIn s.packed)) 1

/-- Value of `sizeof` for a struct. -/
def StructDecl.sizeof (s : StructDecl) : Nat :=
  alignUp (layoutEnd s.packed 0 s.fields) s.alignof

/-- The struct used as the type of a member of another struct. -/
def StructDecl.asType (s : StructDecl) : CType :=
  .structRef s.name s.sizeof s.alignof

/-- Offset of the member called `n`. -/
def StructDecl.offsetOf (s : StructDecl) (n : String) : Option Nat :=
  ((s.fields.zip s.offsets).find? (fun p => p.1.name == n)).map (fun p => p.2)

/-- The member called `n`. -/
def StructDecl.field? (s : StructDecl) (n : String) : Option Field :=
  s.fields.find? (fun f => f.name == n)

/-- Whether the last member is a zero-length array, that is, whether the
struct is followed in memory by a variable-length trailer. -/
def StructDecl.endsInTrailer (s : StructDecl) : Bool :=
  match s.fields.getLast? with
  | some f => f.type.isZeroLengthArray
  | none => false

/-- Bytes of an object whose members are unsigned scalars with the values
`vals`: each member is preceded by the padding (written as zero bytes) that
brings the running offset `cur` to the member's offset. -/
def layoutImage (bo : ByteOrder) (packed : Bool) : Nat → List Field → List Nat → List Nat
  | cur, f :: fs, v :: vs =>
    let off := alignUp cur (f.alignIn packed)
    List.replicate (off - cur) 0 ++ objectRep bo f.type.sizeof v
      ++ layoutImage bo packed (off + f.type.sizeof) fs vs
  | _, _, _ => []

/-- Bytes `[off, off + w)` of a byte sequence. -/
def sliceBytes (bs : List Nat) (off w : Nat) : List Nat := (bs.drop off).take w

/-- Read the scalar member called `n` of struct `s` out of an object image. -/
def StructDecl.readField (s : StructDecl) (bo : ByteOrder) (bs : List Nat) (n : String) :
    Option Nat :=
  match s.offsetOf n, s.field? n with
  | some off, some f => some (objectVal bo (sliceBytes bs off f.type.sizeof))
  | _, _ => none

/-! ## `InfRCTransport.h`: constants -/

/-- The initialiser `(8 * 1024 * 1024) + 4096` of `MAX_RPC_SIZE`, evaluated in
the type `int` of its literals. -/
def MAX_RPC_SIZE_init : Option Int :=
  (intMul 8 1024).bind fun a => (intMul a 1024).bind fun b => intAdd b 4096

/-- Source constant `static const uint32_t MAX_RPC_SIZE = (8 * 1024 * 1024) + 4096`. -/
def MAX_RPC_SIZE : Nat := toUint32 (MAX_RPC_SIZE_init.getD 0)

/-- Source constant `static const uint32_t MAX_SHARED_RX_QUEUE_DEPTH = 64`. -/
def MAX_SHARED_RX_QUEUE_DEPTH : Nat := toUint32 64

/-- Source constant `static const uint32_t MAX_SHARED_RX_SGE_COUNT = 64`. -/
def MAX_SHARED_RX_SGE_COUNT : Nat := toUint32 64

/-- Source constant `static const uint32_t MAX_TX_QUEUE_DEPTH = 64`. -/
def MAX_TX_QUEUE_DEPTH : Nat := toUint32 64

/-- Source constant `static const uint32_t MAX_TX_SGE_COUNT = 64`. -/
def MAX_TX_SGE_COUNT : Nat := toUint32 64

/-! ## `InfRCTransport.h`: `QueuePairTuple` -/

/-- The data members of `class QueuePairTuple`, in declaration order. -/
structure QueuePairTuple where
  qpn : Nat
  psn : Nat
  lid : Nat
  deriving DecidableEq, Repr

namespace QueuePairTuple

/-- Constructor `QueuePairTuple()`. -/
def ctorDefault : QueuePairTuple := { qpn := 0, psn := 0, lid := 0 }

/-- Constructor `QueuePairTuple(uint16_t lid, uint32_t qpn, uint32_t psn)`: the
arguments are converted to the parameter types and stored by the member
initialisers `qpn(qpn), psn(psn), lid(lid)`. -/
def ctor (lid qpn psn : Nat) : QueuePairTuple :=
  { qpn := toUint32 qpn, psn := toUint32 psn, lid := toUint16 lid }

/-- Member `uint16_t getLid() const`. -/
def getLid (t : QueuePairTuple) : Nat := t.lid

/-- Member `uint32_t getQpn() const`. -/
def getQpn (t : QueuePairTuple) : Nat := t.qpn

/-- Member `uint32_t getPsn() const`. -/
def getPsn (t : QueuePairTuple) : Nat := t.psn

/-- The operations the class offers on a constructed tuple (copying and
assignment are removed by `DISALLOW_COPY_AND_ASSIGN`). -/
inductive Op
  | getLid
  | getQpn
  | getPsn
  deriving DecidableEq, Repr

/-- Run one operation on a tuple: the returned value and the tuple afterwards.
All three members are `const`, so none of them writes a data member. -/
def Op.run (t : QueuePairTuple) : Op → Nat × QueuePairTuple
  | .getLid => (t.getLid, t)
  | .getQpn => (t.getQpn, t)
  | .getPsn => (t.getPsn, t)

/-- Run a sequence of operations; the tuple afterwards. -/
def runOps (t : QueuePairTuple) (ops : List Op) : QueuePairTuple :=
  ops.foldl (fun u op => (op.run u).2) t

/-- Every data member holds a value of its declared type. -/
def WellTyped (t : QueuePairTuple) : Prop :=
  t.qpn < 4294967296 ∧ t.psn < 4294967296 ∧ t.lid < 65536

instance instDecidableWellTyped (t : QueuePairTuple) : Decidable t.WellTyped :=
  inferInstanceAs (Decidable (_ ∧ _ ∧ _))

/-- The class declaration: three members, `__attribute__((packed))`. -/
def decl : StructDecl :=
  { name := "QueuePairTuple", packed := true,
    fields := [⟨"qpn", .uint32_t⟩, ⟨"psn", .uint32_t⟩, ⟨"lid", .uint16_t⟩] }

/-- The bytes of a tuple in memory, which is what a byte-for-byte copy puts in
the datagram. -/
def toBytes (bo : ByteOrder) (t : QueuePairTuple) : List Nat :=
  layoutImage bo decl.packed 0 decl.fields [t.qpn, t.psn, t.lid]

/-- Read a tuple back from a datagram payload of exactly `sizeof(QueuePairTuple)`
bytes. -/
def fromBytes (bo : ByteOrder) (bs : List Nat) : Option QueuePairTuple :=
  if bs.length = decl.sizeof then
    match decl.readField bo bs "qpn", decl.readField bo bs "psn",
      decl.readField bo bs "lid" with
    | some q, some p, some l => some { qpn := q, psn := p, lid := l }
    | _, _, _ => none
  else none

end QueuePairTuple

/-! ## `shared/rcrpc.h`: message types -/

/-- Source enumeration `enum RCRPC_TYPE`. -/
inductive RCRPC_TYPE
  | RCRPC_PING_REQUEST
  | RCRPC_PING_RESPONSE
  | RCRPC_READ_REQUEST
  | RCRPC_READ_RESPONSE
  | RCRPC_WRITE_REQUEST
  | RCRPC_WRITE_RESPONSE
  | RCRPC_INSERT_REQUEST
  | RCRPC_INSERT_RESPONSE
  | RCRPC_DELETE_REQUEST
  | RCRPC_DELETE_RESPONSE
  | RCRPC_CREATE_TABLE_REQUEST
  | RCRPC_CREATE_TABLE_RESPONSE
  | RCRPC_OPEN_TABLE_REQUEST
  | RCRPC_OPEN_TABLE_RESPONSE
  | RCRPC_DROP_TABLE_REQUEST
  | RCRPC_DROP_TABLE_RESPONSE
  | RCRPC_ERROR_RESPONSE
  deriving DecidableEq, Repr

namespace RCRPC_TYPE

/-- The enumerators in the order in which the enumeration lists them. -/
def enumerators : List RCRPC_TYPE :=
  [RCRPC_PING_REQUEST, RCRPC_PING_RESPONSE, RCRPC_READ_REQUEST, RCRPC_READ_RESPONSE,
   RCRPC_WRITE_REQUEST, RCRPC_WRITE_RESPONSE, RCRPC_INSERT_REQUEST, RCRPC_INSERT_RESPONSE,
   RCRPC_DELETE_REQUEST, RCRPC_DELETE_RESPONSE, RCRPC_CREATE_TABLE_REQUEST,
   RCRPC_CREATE_TABLE_RESPONSE, RCRPC_OPEN_TABLE_REQUEST, RCRPC_OPEN_TABLE_RESPONSE,
   RCRPC_DROP_TABLE_REQUEST, RCRPC_DROP_TABLE_RESPONSE, RCRPC_ERROR_RESPONSE]

/-- Values of enumerators without initialisers: the first is `0` and each
later one is its predecessor plus one; `next` is the value of the head. -/
def assignValues : Nat → List RCRPC_TYPE → List (RCRPC_TYPE × Nat)
  | _, [] => []
  | next, e :: es => (e, next) :: assignValues (next + 1) es

/-- The integer value of an enumerator. -/
def value (t : RCRPC_TYPE) : Nat :=
  (((assignValues 0 enumerators).find? fun p => p.1 == t).map fun p => p.2).getD 0

end RCRPC_TYPE

/-- The eight operations of the schema, each with a request and a response. -/
inductive RpcOperation
  | ping
  | read
  | write
  | insert
  | delete
  | createTable
  | openTable
  | dropTable
  deriving DecidableEq, Repr

/-- The `RCRPC_*_REQUEST` enumerator of an operation. -/
def RpcOperation.request : RpcOperation → RCRPC_TYPE
  | .ping => .RCRPC_PING_REQUEST
  | .read => .RCRPC_READ_REQUEST
  | .write => .RCRPC_WRITE_REQUEST
  | .insert => .RCRPC_INSERT_REQUEST
  | .delete => .RCRPC_DELETE_REQUEST
  | .createTable => .RCRPC_CREATE_TABLE_REQUEST
  | .openTable => .RCRPC_OPEN_TABLE_REQUEST
  | .dropTable => .RCRPC_DROP_TABLE_REQUEST

/-- The `RCRPC_*_RESPONSE` enumerator of an operation. -/
def RpcOperation.response : RpcOperation → RCRPC_TYPE
  | .ping => .RCRPC_PING_RESPONSE
  | .read => .RCRPC_READ_RESPONSE
  | .write => .RCRPC_WRITE_RESPONSE
  | .insert => .RCRPC_INSERT_RESPONSE
  | .delete => .RCRPC_DELETE_RESPONSE
  | .createTable => .RCRPC_CREATE_TABLE_RESPONSE
  | .openTable => .RCRPC_OPEN_TABLE_RESPONSE
  | .dropTable => .RCRPC_DROP_TABLE_RESPONSE

/-! ## `shared/rcrpc.h`: `RCRPC_VERSION_ANY` -/

/-- The macro `RCRPC_VERSION_ANY`. Under `__cplusplus` it is
`static_cast<uint64_t>(-1)`: the `int` value `-1` converted to `uint64_t`.
Otherwise it is `(uint64_t)(-1ULL)`: the `unsigned long long` value `1ULL`
negated, then converted to `uint64_t`. -/
def RCRPC_VERSION_ANY (cplusplus : Bool) : Nat :=
  if cplusplus then toUint64 ((intNeg 1).getD 0) else toUint64 (ullNeg 1)

/-! ## `shared/rcrpc.h`: message structs -/

/-- Source struct `rcrpc_header`. -/
def rcrpc_header : StructDecl :=
  { name := "rcrpc_header", packed := false,
    fields := [⟨"type", .uint32_t⟩, ⟨"len", .uint32_t⟩] }

/-- The member `struct rcrpc_header header` that opens every message struct. -/
def headerMember : Field := ⟨"header", rcrpc_header.asType⟩

/-- Source struct `rcrpc_any`. -/
def rcrpc_any : StructDecl :=
  { name := "rcrpc_any", packed := false,
    fields := [headerMember, ⟨"opaque", .array .char 0⟩] }

/-- Source struct `rcrpc_ping_request`. -/
def rcrpc_ping_request : StructDecl :=
  { name := "rcrpc_ping_request", packed := false, fields := [headerMember] }

/-- Source struct `rcrpc_ping_response`. -/
def rcrpc_ping_response : StructDecl :=
  { name := "rcrpc_ping_response", packed := false, fields := [headerMember] }

/-- Source struct `rcrpc_read_request`. -/
def rcrpc_read_request : StructDecl :=
  { name := "rcrpc_read_request", packed := false,
    fields := [headerMember, ⟨"table", .uint64_t⟩, ⟨"key", .uint64_t⟩,
      ⟨"version", .uint64_t⟩] }

/-- Source struct `rcrpc_read_response`. -/
def rcrpc_read_response : StructDecl :=
  { name := "rcrpc_read_response", packed := false,
    fields := [headerMember, ⟨"version", .uint64_t⟩, ⟨"buf_len", .uint64_t⟩,
      ⟨"buf", .array .char 0⟩] }

/-- Source struct `rcrpc_write_request`. -/
def rcrpc_write_request : StructDecl :=
  { name := "rcrpc_write_request", packed := false,
    fields := [headerMember, ⟨"table", .uint64_t⟩, ⟨"key", .uint64_t⟩,
      ⟨"version", .uint64_t⟩, ⟨"buf_len", .uint64_t⟩, ⟨"buf", .array .char 0⟩] }

/-- Source struct `rcrpc_write_response`. -/
def rcrpc_write_response : StructDecl :=
  { name := "rcrpc_write_response", packed := false,
    fields := [headerMember, ⟨"version", .uint64_t⟩] }

/-- Source struct `rcrpc_insert_request`. -/
def rcrpc_insert_request : StructDecl :=
  { name := "rcrpc_insert_request", packed := false,
    fields := [headerMember, ⟨"table", .uint64_t⟩, ⟨"buf_len", .uint64_t⟩,
      ⟨"buf", .array .char 0⟩] }

/-- Source struct `rcrpc_insert_response`. -/
def rcrpc_insert_response : StructDecl :=
  { name := "rcrpc_insert_response", packed := false,
    fields := [headerMember, ⟨"key", .uint64_t⟩, ⟨"version", .uint64_t⟩] }

/-- Source struct `rcrpc_delete_request`. -/
def rcrpc_delete_request : StructDecl :=
  { name := "rcrpc_delete_request", packed := false,
    fields := [headerMember, ⟨"table", .uint64_t⟩, ⟨"key", .uint64_t⟩,
      ⟨"version", .uint64_t⟩] }

/-- Source struct `rcrpc_delete_response`. -/
def rcrpc_delete_response : StructDecl :=
  { name := "rcrpc_delete_response", packed := false,
    fields := [headerMember, ⟨"version", .uint64_t⟩] }

/-- Source struct `rcrpc_create_table_request`. -/
def rcrpc_create_table_request : StructDecl :=
  { name := "rcrpc_create_table_request", packed := false,
    fields := [headerMember, ⟨"name", .array .char 64⟩] }

/-- Source struct `rcrpc_create_table_response`. -/
def rcrpc_create_table_response : StructDecl :=
  { name := "rcrpc_create_table_response", packed := false, fields := [headerMember] }

/-- Source struct `rcrpc_open_table_request`. -/
def rcrpc_open_table_request : StructDecl :=
  { name := "rcrpc_open_table_request", packed := false,
    fields := [headerMember, ⟨"name", .array .char 64⟩] }

/-- Source struct `rcrpc_open_table_response`. -/
def rcrpc_open_table_response : StructDecl :=
  { name := "rcrpc_open_table_response", packed := false,
    fields := [headerMember, ⟨"handle", .uint64_t⟩] }

/-- Source struct `rcrpc_drop_table_request`. -/
def rcrpc_drop_table_request : StructDecl :=
  { name := "rcrpc_drop_table_request", packed := false,
    fields := [headerMember, ⟨"name", .array .char 64⟩] }

/-- Source struct `rcrpc_drop_table_response`. -/
def rcrpc_drop_table_response : StructDecl :=
  { name := "rcrpc_drop_table_response", packed := false, fields := [headerMember] }

/-- Source struct `rcrpc_error_response`. -/
def rcrpc_error_response : StructDecl :=
  { name := "rcrpc_error_response", packed := false,
    fields := [headerMember, ⟨"message", .array .char 0⟩] }

/-- The struct that the header names after each message type. -/
def RCRPC_TYPE.structOf : RCRPC_TYPE → StructDecl
  | .RCRPC_PING_REQUEST => rcrpc_ping_request
  | .RCRPC_PING_RESPONSE => rcrpc_ping_response
  | .RCRPC_READ_REQUEST => rcrpc_read_request
  | .RCRPC_READ_RESPONSE => rcrpc_read_response
  | .RCRPC_WRITE_REQUEST => rcrpc_write_request
  | .RCRPC_WRITE_RESPONSE => rcrpc_write_response
  | .RCRPC_INSERT_REQUEST => rcrpc_insert_request
  | .RCRPC_INSERT_RESPONSE => rcrpc_insert_response
  | .RCRPC_DELETE_REQUEST => rcrpc_delete_request
  | .RCRPC_DELETE_RESPONSE => rcrpc_delete_response
  | .RCRPC_CREATE_TABLE_REQUEST => rcrpc_create_table_request
  | .RCRPC_CREATE_TABLE_RESPONSE => rcrpc_create_table_response
  | .RCRPC_OPEN_TABLE_REQUEST => rcrpc_open_table_request
  | .RCRPC_OPEN_TABLE_RESPONSE => rcrpc_open_table_response
  | .RCRPC_DROP_TABLE_REQUEST => rcrpc_drop_table_request
  | .RCRPC_DROP_TABLE_RESPONSE => rcrpc_drop_table_response
  | .RCRPC_ERROR_RESPONSE => rcrpc_error_response

/-- Every struct declared in `rcrpc.h` that carries a message: the generic
`rcrpc_any` and the seventeen typed ones. -/
def messageStructs : List StructDecl :=
  rcrpc_any :: RCRPC_TYPE.enumerators.map RCRPC_TYPE.structOf

/-- Source macro `RCRPC_HEADER_LEN`, `sizeof(struct rcrpc_header)`. -/
def RCRPC_HEADER_LEN : Nat := rcrpc_header.sizeof

/-- The macros `RCRPC_*_LEN` and `RCRPC_*_LEN_WODATA`: `sizeof` of the struct of
the message type. -/
def RCRPC_LEN (t : RCRPC_TYPE) : Nat := t.structOf.sizeof

/-- Whether the struct has a member called `buf_len`. -/
def StructDecl.hasBufLen (s : StructDecl) : Bool := (s.field? "buf_len").isSome

/-- Whether the first member is `struct rcrpc_header header` and lies at
offset `0`. -/
def StructDecl.startsWithHeader (s : StructDecl) : Bool :=
  decide (s.fields.head? = some headerMember) && decide (s.offsetOf "header" = some 0)

/-! ## `InfRCTransport.h`: `BufferDescriptor` -/

/-- Conversion of a `uint32_t` value to `int`. -/
def toInt32 (n : Nat) : Int :=
  if n % 4294967296 < 2147483648 then (n % 4294967296 : Nat)
  else (n % 4294967296 : Nat) - 4294967296

/-- Source struct `BufferDescriptor`. Pointers are addresses, `0` is `NULL`. -/
structure BufferDescriptor where
  buffer : Nat
  mr : Nat
  id : Int
  inUse : Bool
  deriving DecidableEq, Repr

/-- Constructor `BufferDescriptor(char *buffer, ibv_mr *mr, uint32_t id)`. -/
def BufferDescriptor.ctor (buffer mr id : Nat) : BufferDescriptor :=
  { buffer := buffer, mr := mr, id := toInt32 (toUint32 id), inUse := false }

/-- Constructor `BufferDescriptor()`. -/
def BufferDescriptor.ctorDefault : BufferDescriptor :=
  { buffer := 0, mr := 0, id := 0, inUse := false }

/-! ## `InfRCTransport.h`: `QueuePair`

The class declaration is in the header; the bodies of its members are in
`InfRCTransport.cc`, which is not among the sources. -/

/-- Modelled from the spec: the two states of a queue pair (section 3),
`CREATED` after construction (adapter state INIT) and `READY` after `plumb()`
(adapter state RTS). The adapter calls behind them are in `InfRCTransport.cc`. -/
inductive QpState
  | CREATED
  | READY
  deriving DecidableEq, Repr

/-- Modelled from the spec: the adapter object behind the member `ibv_qp* qp`
(declared in `infiniband/verbs.h`): the queue-pair number the adapter assigned,
the state, and the destination set by `plumb()`. -/
structure IbvQp where
  qpNum : Nat
  state : QpState
  destQpNum : Nat
  dlid : Nat
  rqPsn : Nat
  deriving DecidableEq, Repr

/-- Source class `QueuePair`: its data members, handles as numbers. -/
structure QueuePair where
  ibPhysicalPort : Int
  pd : Nat
  srq : Nat
  qp : IbvQp
  txcq : Nat
  rxcq : Nat
  initialPsn : Nat
  deriving DecidableEq, Repr

namespace QueuePair

/-- Modelled from the spec: the constructor `QueuePair(ibPhysicalPort, pd, srq,
txcq, rxcq)`, whose body is in `InfRCTransport.cc`. The hardware queue pair is
allocated and brought to INIT (`CREATED`) and a local `initialPsn` is chosen;
`qpNum` is the number the adapter assigns and `psn` the number drawn. -/
def ctor (ibPhysicalPort : Int) (pd srq txcq rxcq : Nat) (qpNum psn : Nat) : QueuePair :=
  { ibPhysicalPort := ibPhysicalPort, pd := pd, srq := srq,
    qp := { qpNum := toUint32 qpNum, state := .CREATED, destQpNum := 0, dlid := 0, rqPsn := 0 },
    txcq := txcq, rxcq := rxcq, initialPsn := toUint32 psn }

/-- Modelled from the spec: `getInitialPsn()`, body in `InfRCTransport.cc`. -/
def getInitialPsn (q : QueuePair) : Nat := q.initialPsn

/-- Modelled from the spec: `getLocalQpNumber()`, body in `InfRCTransport.cc`;
the local queue-pair number. -/
def getLocalQpNumber (q : QueuePair) : Nat := q.qp.qpNum

/-- Modelled from the spec: `getRemoteQpNumber()`, body in `InfRCTransport.cc`;
the remote queue-pair number, meaningful after `plumb()`. -/
def getRemoteQpNumber (q : QueuePair) : Nat := q.qp.destQpNum

/-- Modelled from the spec: `getRemoteLid()`, body in `InfRCTransport.cc`; the
remote address identifier, meaningful after `plumb()`. -/
def getRemoteLid (q : QueuePair) : Nat := q.qp.dlid

/-- The state of the queue pair. -/
def state (q : QueuePair) : QpState := q.qp.state

/-- Modelled from the spec: `plumb(QueuePairTuple *qpt)`, body in
`InfRCTransport.cc`. Section 4.2: sets the destination address, queue-pair
number and packet sequence number from the peer tuple and moves `CREATED` to
`READY`; it is exactly-once, a second call is rejected (`none`). -/
def plumb (q : QueuePair) (qpt : QueuePairTuple) : Option QueuePair :=
  match q.qp.state with
  | .CREATED =>
    some { q with qp := { q.qp with state := .READY, destQpNum := qpt.getQpn,
                                    dlid := qpt.getLid, rqPsn := qpt.getPsn } }
  | .READY => none

end QueuePair

/-! ## `InfRCTransport.h`: the transport

The data members are those of the class declaration. The members whose
bodies are in `InfRCTransport.cc` are modelled from the specification. -/

/-- Modelled from the spec: one request handed to the adapter (the calls are
made in `InfRCTransport.cc`): a descriptor posted on the shared receive queue,
or a send of `payload` from a descriptor on a queue pair. -/
inductive HwPost
  | srqReceive (bd : Nat)
  | send (qpNum : Nat) (bd : Nat) (payload : List Nat)
  deriving DecidableEq, Repr

/-- Source class `InfRCTransport`: its data members (handles as numbers, the
`boost::unordered_map` as an association list). The last four fields are not
members of the class; they are the state of the adapter that the transport
drives, modelled from the spec: the local address `ibLid` that `ibGetLid()`
reports, the descriptors posted and not yet completed in each direction, and
the log of every post made. -/
structure InfRCTransport where
  rxBuffers : List BufferDescriptor
  currentRxBuffer : Nat
  txBuffers : List BufferDescriptor
  currentTxBuffer : Nat
  srq : Nat
  dev : Nat
  ctxt : Nat
  pd : Nat
  rxcq : Nat
  txcq : Nat
  ibPhysicalPort : Int
  udpListenPort : Int
  setupSocket : Int
  queuePairMap : List (Nat × QueuePair)
  ibLid : Nat
  srqPosted : List Nat
  txPosted : List Nat
  posts : List HwPost
  deriving DecidableEq, Repr

/-- Source class `InfRCTransport::ServerRpc`: the queue pair it is bound to;
`replyPayload` is the reply buffer of the base class `Transport::ServerRpc`. -/
structure ServerRpc where
  qp : QueuePair
  replyPayload : List Nat
  deriving DecidableEq, Repr

/-- Modelled from the spec: the outcome of `clientSend` and `sendReply`
(section 7): the payload was posted from descriptor `bd`; or it was rejected
for exceeding `MAX_RPC_SIZE`; or the queue pair is not `READY`; or the
candidate transmit descriptor is still in use and the caller has to wait for a
completion. -/
inductive SendResult
  | posted (bd : Nat)
  | rejectedTooLarge
  | notReady
  | wouldBlock
  deriving DecidableEq, Repr

/-- Number of descriptors of a pool whose `inUse` flag is set. -/
def inUseCount (pool : List BufferDescriptor) : Nat := pool.countP fun bd => bd.inUse

/-- Write the `inUse` flag of descriptor `i` of a pool. -/
def setInUse (pool : List BufferDescriptor) (i : Nat) (b : Bool) : List BufferDescriptor :=
  match pool[i]? with
  | some bd => pool.set i { bd with inUse := b }
  | none => pool

/-- Modelled from the spec: taking the next round-robin slot of a pool of
`depth` descriptors (section 4.1; the code is in `InfRCTransport.cc`). The
round-robin index selects the candidate; if it is still in use nothing is
handed out (`none`: the caller waits for completions), otherwise the candidate
and the advanced index are returned. -/
def takeSlot (depth : Nat) (pool : List BufferDescriptor) (current : Nat) :
    Option (Nat × Nat) :=
  match pool[current]? with
  | some bd => if bd.inUse then none else some (current, (current + 1) % depth)
  | none => none

namespace InfRCTransport

/-- Modelled from the spec: the pool built at construction (section 4.1; the
body of `allocateBufferDescriptorAndRegister()` is in `InfRCTransport.cc`): one
registered region per descriptor, ids unique within the pool. -/
def newPool (depth base : Nat) : List BufferDescriptor :=
  (List.range depth).map fun i => BufferDescriptor.ctor (base + i + 1) (base + i + 1) i

/-- Modelled from the spec: the constructor `InfRCTransport(serviceLocator)`,
body in `InfRCTransport.cc`: both pools allocated, no connection registered,
nothing posted. `lid` is the address the adapter reports for the port. -/
def ctor (lid : Nat) (ibPhysicalPort udpListenPort : Int) : InfRCTransport :=
  { rxBuffers := newPool MAX_SHARED_RX_QUEUE_DEPTH 0, currentRxBuffer := 0,
    txBuffers := newPool MAX_TX_QUEUE_DEPTH MAX_SHARED_RX_QUEUE_DEPTH, currentTxBuffer := 0,
    srq := 1, dev := 1, ctxt := 1, pd := 1, rxcq := 1, txcq := 2,
    ibPhysicalPort := ibPhysicalPort, udpListenPort := udpListenPort, setupSocket := 3,
    queuePairMap := [], ibLid := toUint16 lid, srqPosted := [], txPosted := [], posts := [] }

/-- Modelled from the spec: `ibGetLid()`, body in `InfRCTransport.cc`. -/
def ibGetLid (t : InfRCTransport) : Nat := t.ibLid

/-- Modelled from the spec: `ibPostSrqReceive(bd)`, body in `InfRCTransport.cc`:
posting to the shared receive queue sets `inUse` (section 4.1). -/
def ibPostSrqReceive (t : InfRCTransport) (bd : Nat) : InfRCTransport :=
  { t with rxBuffers := setInUse t.rxBuffers bd true,
           srqPosted := bd :: t.srqPosted,
           posts := t.posts ++ [.srqReceive bd] }

/-- Modelled from the spec: `ibPostSend(qp, bd, length)`, body in
`InfRCTransport.cc`: posting to a send sets `inUse` (section 4.1). -/
def ibPostSend (t : InfRCTransport) (qp : QueuePair) (bd : Nat) (payload : List Nat) :
    InfRCTransport :=
  { t with txBuffers := setInUse t.txBuffers bd true,
           txPosted := bd :: t.txPosted,
           posts := t.posts ++ [.send qp.getLocalQpNumber bd payload] }

/-- Modelled from the spec: posting the next receive descriptor (section 4.1);
nothing happens while the candidate is still in use. -/
def postReceive (t : InfRCTransport) : InfRCTransport :=
  match takeSlot MAX_SHARED_RX_QUEUE_DEPTH t.rxBuffers t.currentRxBuffer with
  | some (bd, next) => ibPostSrqReceive { t with currentRxBuffer := next } bd
  | none => t

/-- Modelled from the spec: a receive completion polled from the receive
completion queue clears `inUse` of the descriptor it names (section 4.1). -/
def completeRx (t : InfRCTransport) (bd : Nat) : InfRCTransport :=
  if bd ∈ t.srqPosted then
    { t with rxBuffers := setInUse t.rxBuffers bd false, srqPosted := t.srqPosted.erase bd }
  else t

/-- Modelled from the spec: a send completion polled from the transmit
completion queue clears `inUse` of the descriptor it names (section 4.1). -/
def completeTx (t : InfRCTransport) (bd : Nat) : InfRCTransport :=
  if bd ∈ t.txPosted then
    { t with txBuffers := setInUse t.txBuffers bd false, txPosted := t.txPosted.erase bd }
  else t

/-- Modelled from the spec: the common path of `clientSend` and `sendReply`
(sections 4.3 and 7; bodies in `InfRCTransport.cc`). A payload larger than
`MAX_RPC_SIZE` is rejected before anything else is done; a queue pair accepts a
post only when `READY`; the next transmit descriptor is taken round-robin and
the payload is posted from it. -/
def sendOn (t : InfRCTransport) (qp : QueuePair) (payload : List Nat) :
    SendResult × InfRCTransport :=
  if MAX_RPC_SIZE < payload.length then (.rejectedTooLarge, t)
  else if qp.state ≠ .READY then (.notReady, t)
  else
    match takeSlot MAX_TX_QUEUE_DEPTH t.txBuffers t.currentTxBuffer with
    | some (bd, next) => (.posted bd, ibPostSend { t with currentTxBuffer := next } qp bd payload)
    | none => (.wouldBlock, t)

/-- Modelled from the spec: `clientSend(service, payload, response)`, body in
`InfRCTransport.cc`; `qp` is the client's queue pair for the service. -/
def clientSend (t : InfRCTransport) (qp : QueuePair) (payload : List Nat) :
    SendResult × InfRCTransport :=
  sendOn t qp payload

/-- Modelled from the spec: `ServerRpc::sendReply()`, body in
`InfRCTransport.cc`: posts the response on the queue pair of the request. -/
def sendReply (t : InfRCTransport) (rpc : ServerRpc) : SendResult × InfRCTransport :=
  sendOn t rpc.qp rpc.replyPayload

/-- Modelled from the spec: resolving a queue-pair number through the registry
(section 4.3; the lookups are made in `InfRCTransport.cc`). -/
def lookupQp (t : InfRCTransport) (k : Nat) : Option QueuePair :=
  (t.queuePairMap.find? fun p => p.1 == k).map fun p => p.2

/-- Modelled from the spec: storing `qp` in the registry under key `k`
(section 3: keys are unique, so an entry already stored under `k` is
replaced); the insertion is made in `InfRCTransport.cc`. -/
def registerQp (t : InfRCTransport) (k : Nat) (qp : QueuePair) : InfRCTransport :=
  { t with queuePairMap := (k, qp) :: t.queuePairMap.filter fun p => p.1 != k }

/-- Modelled from the spec: the tuple a transport sends for one of its queue
pairs (section 4.3; built in `InfRCTransport.cc`): its own address and the
queue pair's local number and initial packet sequence number. -/
def localTuple (t : InfRCTransport) (qp : QueuePair) : QueuePairTuple :=
  QueuePairTuple.ctor t.ibGetLid qp.getLocalQpNumber qp.getInitialPsn

/-- Modelled from the spec: the first half of `clientTrySetupQueuePair`
(section 4.3, connecting role; body in `InfRCTransport.cc`): create a local
queue pair and send the local tuple as a single datagram. Returns the queue
pair and the datagram payload. -/
def clientSetupSend (t : InfRCTransport) (bo : ByteOrder) (qpNum psn : Nat) :
    QueuePair × List Nat :=
  let qp := QueuePair.ctor t.ibPhysicalPort t.pd t.srq t.txcq t.rxcq qpNum psn
  (qp, (t.localTuple qp).toBytes bo)

/-- Modelled from the spec: the second half of `clientTrySetupQueuePair`
(section 4.3): the reply datagram carries the peer's tuple, with which
`plumb()` is called; a malformed reply fails the attempt. -/
def clientSetupFinish (bo : ByteOrder) (qp : QueuePair) (reply : List Nat) :
    Option QueuePair :=
  (QueuePairTuple.fromBytes bo reply).bind fun peer => qp.plumb peer

/-- Modelled from the spec: `serverTrySetupQueuePair` (section 4.3, accepting
role; body in `InfRCTransport.cc`): on receipt of a tuple create a new local
queue pair, reply with the local tuple, `plumb()` with the received one, and
insert the queue pair into the registry keyed by its local queue-pair number.
Returns the transport afterwards and the reply datagram. -/
def serverTrySetupQueuePair (t : InfRCTransport) (bo : ByteOrder) (datagram : List Nat)
    (qpNum psn : Nat) : Option (InfRCTransport × List Nat) :=
  (QueuePairTuple.fromBytes bo datagram).bind fun peer =>
    let qp := QueuePair.ctor t.ibPhysicalPort t.pd t.srq t.txcq t.rxcq qpNum psn
    (qp.plumb peer).map fun ready =>
      (t.registerQp ready.getLocalQpNumber ready, (t.localTuple qp).toBytes bo)

/-- Modelled from the spec: the whole setup exchange of section 4.3 between a
client and a server transport. Returns the client's queue pair and the
server transport afterwards. -/
def handshake (bo : ByteOrder) (client server : InfRCTransport)
    (clientQpNum clientPsn serverQpNum serverPsn : Nat) :
    Option (QueuePair × InfRCTransport) :=
  let sent := client.clientSetupSend bo clientQpNum clientPsn
  (server.serverTrySetupQueuePair bo sent.2 serverQpNum serverPsn).bind fun r =>
    (clientSetupFinish bo sent.1 r.2).map fun qp => (qp, r.1)

/-- Modelled from the spec: the things that happen to a transport (sections
4.1 and 4.3): a receive descriptor is posted, a receive or send completion is
polled, a client sends a request, a server sends a reply, a setup datagram
arrives at the server. -/
inductive Event
  | postReceive
  | completeRx (bd : Nat)
  | completeTx (bd : Nat)
  | clientSend (qp : QueuePair) (payload : List Nat)
  | sendReply (rpc : ServerRpc)
  | serverSetup (bo : ByteOrder) (datagram : List Nat) (qpNum psn : Nat)
  deriving DecidableEq, Repr

/-- The transport after one event. -/
def apply (t : InfRCTransport) : Event → InfRCTransport
  | .postReceive => t.postReceive
  | .completeRx bd => t.completeRx bd
  | .completeTx bd => t.completeTx bd
  | .clientSend qp payload => (t.clientSend qp payload).2
  | .sendReply rpc => (t.sendReply rpc).2
  | .serverSetup bo datagram qpNum psn =>
    match t.serverTrySetupQueuePair bo datagram qpNum psn with
    | some r => r.1
    | none => t

/-- The transport after a sequence of events. -/
def run (t : InfRCTransport) (events : List Event) : InfRCTransport :=
  events.foldl apply t

/-- The states a transport can be in: those that a sequence of events
produces from a newly constructed transport. -/
def Reachable (t : InfRCTransport) : Prop :=
  ∃ (lid : Nat) (port udp : Int) (events : List Event), run (ctor lid port udp) events = t

end InfRCTransport

/-! ## Invariants of the transport -/

/-- A pool agrees with the adapter: it has `depth` descriptors, the
round-robin index points into it, no descriptor is posted twice, and the
descriptors posted and not yet completed are exactly those with `inUse` set. -/
def PoolInv (depth : Nat) (pool : List BufferDescriptor) (current : Nat)
    (posted : List Nat) : Prop :=
  pool.length = depth ∧ current < depth ∧ posted.Nodup ∧
    ∀ i, i ∈ posted ↔ ∃ bd, pool[i]? = some bd ∧ bd.inUse = true

/-- Registry keys are unique, and every entry is a `READY` queue pair stored
under its own local queue-pair number. -/
def RegistryInv (m : List (Nat × QueuePair)) : Prop :=
  (m.map Prod.fst).Nodup ∧ ∀ p ∈ m, p.1 = p.2.getLocalQpNumber ∧ p.2.state = .READY

/-- The invariant of a transport. -/
def InfRCTransport.Inv (t : InfRCTransport) : Prop :=
  PoolInv MAX_SHARED_RX_QUEUE_DEPTH t.rxBuffers t.currentRxBuffer t.srqPosted ∧
  PoolInv MAX_TX_QUEUE_DEPTH t.txBuffers t.currentTxBuffer t.txPosted ∧
  RegistryInv t.queuePairMap ∧ t.ibLid < 65536

/-! ## Sample states -/

/-- A queue pair in state `READY`: local number 9, connected to number 5 at
address 3. -/
def sampleReadyQp : QueuePair :=
  { ibPhysicalPort := 1, pd := 1, srq := 1,
    qp := { qpNum := 9, state := .READY, destQpNum := 5, dlid := 3, rqPsn := 100 },
    txcq := 2, rxcq := 1, initialPsn := 200 }

/-- A transport on which 64 one-byte sends were posted and none has completed,
and 64 receives were posted. -/
def sampleSaturated : InfRCTransport :=
  (InfRCTransport.ctor 7 1 0).run
    (List.replicate 64 (.clientSend sampleReadyQp [1]) ++ List.replicate 64 .postReceive)

/-! ## `InfRCTransport.h`: newly constructed descriptors and pools -/

/-- The two ways the header offers to construct a descriptor: with no
argument, or from `buffer`, `mr` and `id`. -/
inductive BufferDescriptor.Args
  | none
  | registered (buffer mr id : Nat)
  deriving DecidableEq, Repr

/-- The descriptor that the constructor selected by the arguments builds. -/
def BufferDescriptor.construct : BufferDescriptor.Args → BufferDescriptor
  | .none => BufferDescriptor.ctorDefault
  | .registered buffer mr id => BufferDescriptor.ctor buffer mr id

/-- A member array `BufferDescriptor xBuffers[depth]` right after the members
of the transport are initialised: the class names no initialiser for the
array, so every element is built by `BufferDescriptor()`. -/
def defaultPool (depth : Nat) : List BufferDescriptor :=
  List.replicate depth BufferDescriptor.ctorDefault

/-- A pool each of whose descriptors has just been built by one of the two
constructors, from the arguments listed for it. -/
def constructedPool (args : List BufferDescriptor.Args) : List BufferDescriptor :=
  args.map BufferDescriptor.construct

end RAMCloud

/-! # Theorems -/

namespace RAMCloud

/-! ## Machine integers and object representation -/

theorem toUint16_of_lt (n : Nat) (h : n < 65536) : toUint16 n = n := by
  unfold toUint16
  omega

theorem toUint32_of_lt (n : Nat) (h : n < 4294967296) : toUint32 n = n := by
  unfold toUint32
  omega

theorem toUint32_lt (z : Int) : toUint32 z < 4294967296 := by
  unfold toUint32
  omega

theorem toUint16_lt (z : Int) : toUint16 z < 65536 := by
  unfold toUint16
  omega

theorem encodeLE_length (w x : Nat) : (encodeLE w x).length = w := by
  induction w generalizing x with
  | zero => rfl
  | succ w ih => simp [encodeLE, ih]

theorem decodeLE_encodeLE (w x : Nat) : decodeLE (encodeLE w x) = x % 256 ^ w := by
  induction w generalizing x with
  | zero => simp [encodeLE, decodeLE, Nat.mod_one]
  | succ w ih =>
    simp only [encodeLE, decodeLE, ih]
    rw [pow_succ, mul_comm (256 ^ w) 256, Nat.mod_mul]

theorem objectRep_length (bo : ByteOrder) (w x : Nat) : (objectRep bo w x).length = w := by
  cases bo <;> simp [objectRep, encodeLE_length]

theorem objectVal_objectRep (bo : ByteOrder) (w x : Nat) :
    objectVal bo (objectRep bo w x) = x % 256 ^ w := by
  cases bo <;> simp [objectRep, objectVal, decodeLE_encodeLE]

theorem encodeLE_byte (w x b : Nat) (h : b ∈ encodeLE w x) : b < 256 := by
  induction w generalizing x with
  | zero => simp [encodeLE] at h
  | succ w ih =>
    simp only [encodeLE, List.mem_cons] at h
    rcases h with h | h
    · omega
    · exact ih _ h

theorem objectRep_byte (bo : ByteOrder) (w x b : Nat) (h : b ∈ objectRep bo w x) : b < 256 := by
  cases bo
  · exact encodeLE_byte w x b h
  · exact encodeLE_byte w x b (by simpa [objectRep] using h)

/-! ## `QueuePairTuple` -/

namespace QueuePairTuple

theorem runOps_eq (t : QueuePairTuple) (ops : List Op) : runOps t ops = t := by
  induction ops with
  | nil => rfl
  | cons op ops ih =>
    have h : (op.run t).2 = t := by cases op <;> rfl
    simpa [runOps, List.foldl_cons, h] using ih

theorem toBytes_eq (bo : ByteOrder) (t : QueuePairTuple) :
    toBytes bo t = objectRep bo 4 t.qpn ++ (objectRep bo 4 t.psn ++ objectRep bo 2 t.lid) := by
  simp [toBytes, decl, layoutImage, Field.alignIn, alignUp, CType.sizeof]

theorem toBytes_length (bo : ByteOrder) (t : QueuePairTuple) : (toBytes bo t).length = 10 := by
  rw [toBytes_eq]
  simp [objectRep_length]

theorem toBytes_byte (bo : ByteOrder) (t : QueuePairTuple) : ∀ b ∈ toBytes bo t, b < 256 := by
  intro b hb
  rw [toBytes_eq] at hb
  simp only [List.mem_append] at hb
  rcases hb with hb | hb | hb <;> exact objectRep_byte _ _ _ _ hb

theorem slice_qpn (bo : ByteOrder) (t : QueuePairTuple) :
    sliceBytes (toBytes bo t) 0 4 = objectRep bo 4 t.qpn := by
  rw [toBytes_eq, sliceBytes, List.drop_zero, List.take_left' (objectRep_length bo 4 t.qpn)]

theorem slice_psn (bo : ByteOrder) (t : QueuePairTuple) :
    sliceBytes (toBytes bo t) 4 4 = objectRep bo 4 t.psn := by
  rw [toBytes_eq, sliceBytes, List.drop_left' (objectRep_length bo 4 t.qpn),
    List.take_left' (objectRep_length bo 4 t.psn)]

theorem slice_lid (bo : ByteOrder) (t : QueuePairTuple) :
    sliceBytes (toBytes bo t) 8 2 = objectRep bo 2 t.lid := by
  have ll : (objectRep bo 2 t.lid).length = 2 := objectRep_length bo 2 t.lid
  have l8 : (objectRep bo 4 t.qpn ++ objectRep bo 4 t.psn).length = 8 := by
    simp [objectRep_length]
  rw [toBytes_eq, sliceBytes, ← List.append_assoc, List.drop_left' l8,
    List.take_of_length_le (by omega)]

theorem fromBytes_toBytes (bo : ByteOrder) (t : QueuePairTuple) (ht : t.WellTyped) :
    fromBytes bo (toBytes bo t) = some t := by
  obtain ⟨hq, hp, hl⟩ := ht
  have o1 : decl.readField bo (toBytes bo t) "qpn" = some t.qpn := by
    have : decl.readField bo (toBytes bo t) "qpn"
        = some (objectVal bo (sliceBytes (toBytes bo t) 0 4)) := rfl
    rw [this, slice_qpn, objectVal_objectRep, Nat.mod_eq_of_lt (by simpa using hq)]
  have o2 : decl.readField bo (toBytes bo t) "psn" = some t.psn := by
    have : decl.readField bo (toBytes bo t) "psn"
        = some (objectVal bo (sliceBytes (toBytes bo t) 4 4)) := rfl
    rw [this, slice_psn, objectVal_objectRep, Nat.mod_eq_of_lt (by simpa using hp)]
  have o3 : decl.readField bo (toBytes bo t) "lid" = some t.lid := by
    have : decl.readField bo (toBytes bo t) "lid"
        = some (objectVal bo (sliceBytes (toBytes bo t) 8 2)) := rfl
    rw [this, slice_lid, objectVal_objectRep, Nat.mod_eq_of_lt (by simpa using hl)]
  have hs : decl.sizeof = 10 := by decide
  simp only [fromBytes, toBytes_length, hs, if_true, o1, o2, o3]

theorem ctor_wellTyped (lid qpn psn : Nat) : (ctor lid qpn psn).WellTyped := by
  unfold WellTyped ctor
  exact ⟨toUint32_lt (qpn : Int), toUint32_lt (psn : Int), toUint16_lt (lid : Int)⟩

end QueuePairTuple

/-- C1: for every `lid` of type `uint16_t` and `qpn`, `psn` of type `uint32_t`,
the tuple built by `QueuePairTuple(lid, qpn, psn)` returns exactly those values
from `getLid()`, `getQpn()` and `getPsn()`, and it still does so after any
sequence of the operations the class offers, which leave the tuple as it was. -/
theorem QueuePairTuple.ctor_getters_stable (lid qpn psn : Nat)
    (hl : lid < 65536) (hq : qpn < 4294967296) (hp : psn < 4294967296) :
    (QueuePairTuple.ctor lid qpn psn).getLid = lid ∧
    (QueuePairTuple.ctor lid qpn psn).getQpn = qpn ∧
    (QueuePairTuple.ctor lid qpn psn).getPsn = psn ∧
    ∀ ops : List QueuePairTuple.Op,
      QueuePairTuple.runOps (QueuePairTuple.ctor lid qpn psn) ops
          = QueuePairTuple.ctor lid qpn psn ∧
      (QueuePairTuple.runOps (QueuePairTuple.ctor lid qpn psn) ops).getLid = lid ∧
      (QueuePairTuple.runOps (QueuePairTuple.ctor lid qpn psn) ops).getQpn = qpn ∧
      (QueuePairTuple.runOps (QueuePairTuple.ctor lid qpn psn) ops).getPsn = psn := by
  have h1 : (QueuePairTuple.ctor lid qpn psn).getLid = lid := toUint16_of_lt lid hl
  have h2 : (QueuePairTuple.ctor lid qpn psn).getQpn = qpn := toUint32_of_lt qpn hq
  have h3 : (QueuePairTuple.ctor lid qpn psn).getPsn = psn := toUint32_of_lt psn hp
  refine ⟨h1, h2, h3, fun ops => ?_⟩
  rw [QueuePairTuple.runOps_eq]
  exact ⟨rfl, h1, h2, h3⟩

/-- Witness for C1 at the largest arguments: `lid = 65535`, `qpn = 4294967295`,
`psn = 4294967294`. -/
theorem QueuePairTuple.ctor_getters_stable_witness :
    (QueuePairTuple.ctor 65535 4294967295 4294967294).getLid = 65535 ∧
    (QueuePairTuple.ctor 65535 4294967295 4294967294).getQpn = 4294967295 ∧
    (QueuePairTuple.ctor 65535 4294967295 4294967294).getPsn = 4294967294 ∧
    ∀ ops : List QueuePairTuple.Op,
      QueuePairTuple.runOps (QueuePairTuple.ctor 65535 4294967295 4294967294) ops
          = QueuePairTuple.ctor 65535 4294967295 4294967294 ∧
      (QueuePairTuple.runOps (QueuePairTuple.ctor 65535 4294967295 4294967294) ops).getLid
          = 65535 ∧
      (QueuePairTuple.runOps (QueuePairTuple.ctor 65535 4294967295 4294967294) ops).getQpn
          = 4294967295 ∧
      (QueuePairTuple.runOps (QueuePairTuple.ctor 65535 4294967295 4294967294) ops).getPsn
          = 4294967294 :=
  QueuePairTuple.ctor_getters_stable 65535 4294967295 4294967294
    (by decide) (by decide) (by decide)

/-- C2: the wire image of a `QueuePairTuple` is exactly 10 bytes with no
padding, `qpn` in bytes 0-3, `psn` in bytes 4-7 and `lid` in bytes 8-9, and
reading a tuple back from the byte-for-byte copy (on a host of the same byte
order) yields the same tuple. -/
theorem QueuePairTuple.wire_image_roundtrip (bo : ByteOrder) (t : QueuePairTuple)
    (ht : t.WellTyped) :
    QueuePairTuple.decl.sizeof = 10 ∧
    (QueuePairTuple.decl.fields.map fun f => f.type.sizeof).sum = QueuePairTuple.decl.sizeof ∧
    QueuePairTuple.decl.offsetOf "qpn" = some 0 ∧
    QueuePairTuple.decl.offsetOf "psn" = some 4 ∧
    QueuePairTuple.decl.offsetOf "lid" = some 8 ∧
    (QueuePairTuple.toBytes bo t).length = 10 ∧
    (∀ b ∈ QueuePairTuple.toBytes bo t, b < 256) ∧
    sliceBytes (QueuePairTuple.toBytes bo t) 0 4 = objectRep bo 4 t.qpn ∧
    sliceBytes (QueuePairTuple.toBytes bo t) 4 4 = objectRep bo 4 t.psn ∧
    sliceBytes (QueuePairTuple.toBytes bo t) 8 2 = objectRep bo 2 t.lid ∧
    QueuePairTuple.fromBytes bo (QueuePairTuple.toBytes bo t) = some t :=
  ⟨by decide, by decide, by decide, by decide, by decide,
    QueuePairTuple.toBytes_length bo t, QueuePairTuple.toBytes_byte bo t,
    QueuePairTuple.slice_qpn bo t, QueuePairTuple.slice_psn bo t, QueuePairTuple.slice_lid bo t,
    QueuePairTuple.fromBytes_toBytes bo t ht⟩

/-- Witness for C2: the tuple `{qpn = 5, psn = 100, lid = 3}` on a
little-endian host. -/
theorem QueuePairTuple.wire_image_roundtrip_witness :
    QueuePairTuple.WellTyped ⟨5, 100, 3⟩ ∧
    QueuePairTuple.toBytes .littleEndian ⟨5, 100, 3⟩ = [5, 0, 0, 0, 100, 0, 0, 0, 3, 0] ∧
    QueuePairTuple.fromBytes .littleEndian (QueuePairTuple.toBytes .littleEndian ⟨5, 100, 3⟩)
      = some ⟨5, 100, 3⟩ :=
  ⟨by decide, by decide,
    (QueuePairTuple.wire_image_roundtrip .littleEndian ⟨5, 100, 3⟩ (by decide)).2.2.2.2.2.2.2.2.2.2⟩

/-! ## Constants of `InfRCTransport.h` -/

/-- C4: `MAX_RPC_SIZE` is 8 MiB plus 4 KiB, `(8 * 1024 * 1024) + 4096 = 8392704`;
no step of the `int` computation of its initialiser overflows, and the value
is representable in `uint32_t`, so the conversion to the type of the constant
(and of the result of `getMaxRpcSize()`) keeps it. -/
theorem MAX_RPC_SIZE_value :
    intMul 8 1024 = some 8192 ∧
    intMul 8192 1024 = some 8388608 ∧
    intAdd 8388608 4096 = some 8392704 ∧
    MAX_RPC_SIZE_init = some 8392704 ∧
    MAX_RPC_SIZE = 8392704 ∧
    MAX_RPC_SIZE = 8 * 2 ^ 20 + 4 * 2 ^ 10 ∧
    MAX_RPC_SIZE < 2 ^ 32 ∧
    toUint32 MAX_RPC_SIZE = MAX_RPC_SIZE := by
  decide

/-! ## The wire schema of `rcrpc.h` -/

/-- C7: the common header is exactly 8 bytes, `type` a `uint32_t` at offset 0
and `len` a `uint32_t` at offset 4; every message struct (the generic
`rcrpc_any` and the struct of each of the seventeen message types) has
`struct rcrpc_header header` as its first member at offset 0, and its fixed
length is at least the 8 bytes of the header. -/
theorem rcrpc_header_leads_every_message :
    RCRPC_HEADER_LEN = 8 ∧
    rcrpc_header.fields = [⟨"type", .uint32_t⟩, ⟨"len", .uint32_t⟩] ∧
    rcrpc_header.offsetOf "type" = some 0 ∧
    rcrpc_header.offsetOf "len" = some 4 ∧
    headerMember.type.sizeof = 8 ∧
    (∀ t : RCRPC_TYPE,
      t.structOf.fields.head? = some headerMember ∧
      t.structOf.offsetOf "header" = some 0 ∧
      RCRPC_HEADER_LEN ≤ RCRPC_LEN t) ∧
    rcrpc_any.fields.head? = some headerMember ∧
    rcrpc_any.offsetOf "header" = some 0 ∧
    RCRPC_HEADER_LEN ≤ rcrpc_any.sizeof ∧
    messageStructs.length = 18 ∧
    messageStructs.all (fun s => s.startsWithHeader && decide (8 ≤ s.sizeof)) = true := by
  refine ⟨by decide, by decide, by decide, by decide, by decide, ?_, by decide, by decide,
    by decide, by decide, by decide⟩
  intro t
  cases t <;> decide

/-- C8 as stated fails: `struct rcrpc_error_response` ends in the
variable-length trailer `char message[0]` and has no `buf_len` member, so not
every message struct with a trailer carries the trailer's length in `buf_len`. -/
theorem error_response_trailer_without_buf_len :
    RCRPC_TYPE.RCRPC_ERROR_RESPONSE.structOf.fields
      = [headerMember, ⟨"message", .array .char 0⟩] ∧
    RCRPC_TYPE.RCRPC_ERROR_RESPONSE.structOf.endsInTrailer = true ∧
    RCRPC_TYPE.RCRPC_ERROR_RESPONSE.structOf.hasBufLen = false ∧
    ¬ ∀ t : RCRPC_TYPE, t.structOf.endsInTrailer = true → t.structOf.hasBufLen = true := by
  refine ⟨by decide, by decide, by decide, fun h => ?_⟩
  exact absurd (h .RCRPC_ERROR_RESPONSE (by decide)) (by decide)

/-- C8, amended: for every message type other than the error response whose
struct ends in a variable-length trailer, the trailer is `char buf[0]` placed
right after the fixed part, and the fixed part has a `uint64_t buf_len` member;
the struct of the error response ends in the trailer `char message[0]` and has
no member that gives its length. -/
theorem trailer_length_in_buf_len (t : RCRPC_TYPE)
    (htr : t.structOf.endsInTrailer = true) (hne : t ≠ .RCRPC_ERROR_RESPONSE) :
    t.structOf.field? "buf_len" = some ⟨"buf_len", .uint64_t⟩ ∧
    (∃ off, t.structOf.offsetOf "buf_len" = some off ∧ off + 8 ≤ t.structOf.sizeof) ∧
    t.structOf.fields.getLast? = some ⟨"buf", .array .char 0⟩ ∧
    t.structOf.offsetOf "buf" = some t.structOf.sizeof ∧
    rcrpc_error_response.fields = [headerMember, ⟨"message", .array .char 0⟩] ∧
    rcrpc_error_response.hasBufLen = false := by
  cases t <;> first
    | exact absurd rfl hne
    | exact absurd htr (by decide)
    | exact ⟨by decide, ⟨16, by decide, by decide⟩, by decide, by decide, by decide, by decide⟩
    | exact ⟨by decide, ⟨32, by decide, by decide⟩, by decide, by decide, by decide, by decide⟩

/-- Witness for the amended C8: the read response. -/
theorem trailer_length_in_buf_len_witness :
    RCRPC_TYPE.RCRPC_READ_RESPONSE.structOf.endsInTrailer = true ∧
    RCRPC_TYPE.RCRPC_READ_RESPONSE.structOf.field? "buf_len" = some ⟨"buf_len", .uint64_t⟩ ∧
    RCRPC_TYPE.RCRPC_READ_RESPONSE.structOf.offsetOf "buf_len" = some 16 ∧
    RCRPC_TYPE.RCRPC_READ_RESPONSE.structOf.offsetOf "buf" = some 24 :=
  ⟨by decide,
    (trailer_length_in_buf_len .RCRPC_READ_RESPONSE (by decide) (by decide)).1,
    by decide, by decide⟩

/-- C9: `RCRPC_VERSION_ANY` is the 64-bit value with all bits set,
`2 ^ 64 - 1 = 0xFFFFFFFFFFFFFFFF`, and the C++ definition
`static_cast<uint64_t>(-1)` and the C definition `(uint64_t)(-1ULL)` denote the
same value. -/
theorem RCRPC_VERSION_ANY_all_bits_set :
    intNeg 1 = some (-1) ∧
    ullNeg 1 = 2 ^ 64 - 1 ∧
    RCRPC_VERSION_ANY true = RCRPC_VERSION_ANY false ∧
    ∀ cplusplus : Bool,
      RCRPC_VERSION_ANY cplusplus = 2 ^ 64 - 1 ∧
      RCRPC_VERSION_ANY cplusplus = 0xFFFFFFFFFFFFFFFF ∧
      RCRPC_VERSION_ANY cplusplus < 2 ^ 64 ∧
      (List.range 64).all (fun i => (RCRPC_VERSION_ANY cplusplus).testBit i) = true := by
  decide

/-- C10: the message type codes are exactly 17 pairwise distinct values, the
consecutive integers 0 (`RCRPC_PING_REQUEST`) through 16
(`RCRPC_ERROR_RESPONSE`); for each of the eight operations the request code is
even and the response code is the request code plus 1; every code fits the
`uint32_t` field `type` of the header. -/
theorem RCRPC_TYPE_codes :
    RCRPC_TYPE.enumerators.length = 17 ∧
    RCRPC_TYPE.enumerators.Nodup ∧
    (∀ t : RCRPC_TYPE, t ∈ RCRPC_TYPE.enumerators) ∧
    RCRPC_TYPE.enumerators.map RCRPC_TYPE.value = List.range 17 ∧
    (∀ t u : RCRPC_TYPE, t.value = u.value ↔ t = u) ∧
    RCRPC_TYPE.RCRPC_PING_REQUEST.value = 0 ∧
    RCRPC_TYPE.RCRPC_ERROR_RESPONSE.value = 16 ∧
    (∀ op : RpcOperation,
      op.request.value % 2 = 0 ∧ op.response.value = op.request.value + 1) ∧
    (∀ t : RCRPC_TYPE, t ≠ .RCRPC_ERROR_RESPONSE ↔
      ∃ op : RpcOperation, t = op.request ∨ t = op.response) ∧
    (∀ t : RCRPC_TYPE,
      t.value ≤ 16 ∧ t.value < 2 ^ 32 ∧ toUint32 t.value = t.value ∧
      rcrpc_header.field? "type" = some ⟨"type", .uint32_t⟩) := by
  refine ⟨by decide, by decide, ?_, by decide, ?_, by decide, by decide, ?_, ?_, ?_⟩
  · intro t; cases t <;> decide
  · intro t u; cases t <;> cases u <;> decide
  · intro op; cases op <;> decide
  · intro t
    cases t
    case RCRPC_PING_REQUEST => exact ⟨fun _ => ⟨.ping, Or.inl rfl⟩, fun _ => by decide⟩
    case RCRPC_PING_RESPONSE => exact ⟨fun _ => ⟨.ping, Or.inr rfl⟩, fun _ => by decide⟩
    case RCRPC_READ_REQUEST => exact ⟨fun _ => ⟨.read, Or.inl rfl⟩, fun _ => by decide⟩
    case RCRPC_READ_RESPONSE => exact ⟨fun _ => ⟨.read, Or.inr rfl⟩, fun _ => by decide⟩
    case RCRPC_WRITE_REQUEST => exact ⟨fun _ => ⟨.write, Or.inl rfl⟩, fun _ => by decide⟩
    case RCRPC_WRITE_RESPONSE => exact ⟨fun _ => ⟨.write, Or.inr rfl⟩, fun _ => by decide⟩
    case RCRPC_INSERT_REQUEST => exact ⟨fun _ => ⟨.insert, Or.inl rfl⟩, fun _ => by decide⟩
    case RCRPC_INSERT_RESPONSE => exact ⟨fun _ => ⟨.insert, Or.inr rfl⟩, fun _ => by decide⟩
    case RCRPC_DELETE_REQUEST => exact ⟨fun _ => ⟨.delete, Or.inl rfl⟩, fun _ => by decide⟩
    case RCRPC_DELETE_RESPONSE => exact ⟨fun _ => ⟨.delete, Or.inr rfl⟩, fun _ => by decide⟩
    case RCRPC_CREATE_TABLE_REQUEST =>
      exact ⟨fun _ => ⟨.createTable, Or.inl rfl⟩, fun _ => by decide⟩
    case RCRPC_CREATE_TABLE_RESPONSE =>
      exact ⟨fun _ => ⟨.createTable, Or.inr rfl⟩, fun _ => by decide⟩
    case RCRPC_OPEN_TABLE_REQUEST =>
      exact ⟨fun _ => ⟨.openTable, Or.inl rfl⟩, fun _ => by decide⟩
    case RCRPC_OPEN_TABLE_RESPONSE =>
      exact ⟨fun _ => ⟨.openTable, Or.inr rfl⟩, fun _ => by decide⟩
    case RCRPC_DROP_TABLE_REQUEST =>
      exact ⟨fun _ => ⟨.dropTable, Or.inl rfl⟩, fun _ => by decide⟩
    case RCRPC_DROP_TABLE_RESPONSE =>
      exact ⟨fun _ => ⟨.dropTable, Or.inr rfl⟩, fun _ => by decide⟩
    case RCRPC_ERROR_RESPONSE =>
      refine ⟨fun h => absurd rfl h, fun h => ?_⟩
      obtain ⟨op, h | h⟩ := h <;> cases op <;> exact absurd h (by decide)
  · intro t; cases t <;> decide

/-! ## Descriptor pools -/

theorem setInUse_length (pool : List BufferDescriptor) (i : Nat) (b : Bool) :
    (setInUse pool i b).length = pool.length := by
  unfold setInUse
  split <;> simp

theorem getElem?_setInUse_self (pool : List BufferDescriptor) (i : Nat) (b : Bool) :
    (setInUse pool i b)[i]? = (pool[i]?).map fun bd => { bd with inUse := b } := by
  unfold setInUse
  split
  · rename_i bd h
    have hi : i < pool.length := (List.getElem?_eq_some.mp h).1
    rw [List.getElem?_set_self hi, h]
    rfl
  · rename_i h
    rw [h]
    rfl

theorem getElem?_setInUse_ne (pool : List BufferDescriptor) (i j : Nat) (b : Bool)
    (h : j ≠ i) : (setInUse pool i b)[j]? = pool[j]? := by
  unfold setInUse
  split
  · exact List.getElem?_set_ne (Ne.symm h)
  · rfl

theorem takeSlot_eq_some (depth : Nat) (pool : List BufferDescriptor) (current bd next : Nat)
    (h : takeSlot depth pool current = some (bd, next)) :
    bd = current ∧ next = (current + 1) % depth ∧
      ∃ d, pool[current]? = some d ∧ d.inUse = false := by
  unfold takeSlot at h
  split at h
  · rename_i d hd
    split at h
    · exact absurd h (by simp)
    · rename_i hu
      simp only [Option.some.injEq, Prod.mk.injEq] at h
      exact ⟨h.1.symm, h.2.symm, d, hd, by simpa using hu⟩
  · exact absurd h (by simp)

theorem takeSlot_none_of_inUse (depth : Nat) (pool : List BufferDescriptor) (current : Nat)
    (h : ∀ d, pool[current]? = some d → d.inUse = true) :
    takeSlot depth pool current = none := by
  unfold takeSlot
  split
  · rename_i d hd
    simp [h d hd]
  · rfl

theorem PoolInv.post {depth : Nat} {pool : List BufferDescriptor} {current : Nat}
    {posted : List Nat} (hinv : PoolInv depth pool current posted) {bd next : Nat}
    (h : takeSlot depth pool current = some (bd, next)) :
    PoolInv depth (setInUse pool bd true) next (bd :: posted) := by
  obtain ⟨hlen, hcur, hnd, hiff⟩ := hinv
  obtain ⟨rfl, rfl, d, hd, hfree⟩ := takeSlot_eq_some depth pool current bd next h
  refine ⟨by rw [setInUse_length, hlen], Nat.mod_lt _ (by omega), ?_, ?_⟩
  · refine List.nodup_cons.mpr ⟨fun hmem => ?_, hnd⟩
    obtain ⟨d', hd', hu⟩ := (hiff bd).mp hmem
    rw [hd] at hd'
    cases hd'
    rw [hfree] at hu
    exact absurd hu (by simp)
  · intro i
    by_cases hi : i = bd
    · subst hi
      rw [getElem?_setInUse_self, hd]
      simp
    · rw [getElem?_setInUse_ne pool bd i true hi, List.mem_cons, ← hiff i]
      simp [hi]

theorem PoolInv.complete {depth : Nat} {pool : List BufferDescriptor} {current : Nat}
    {posted : List Nat} (hinv : PoolInv depth pool current posted) (bd : Nat) :
    PoolInv depth (setInUse pool bd false) current (posted.erase bd) := by
  obtain ⟨hlen, hcur, hnd, hiff⟩ := hinv
  refine ⟨by rw [setInUse_length, hlen], hcur, hnd.erase bd, ?_⟩
  intro i
  rw [hnd.mem_erase_iff]
  by_cases hi : i = bd
  · subst hi
    rw [getElem?_setInUse_self]
    constructor
    · intro h
      exact absurd rfl h.1
    · rintro ⟨d, hd, hu⟩
      cases hp : pool[i]? with
      | none => rw [hp] at hd; exact absurd hd (by simp)
      | some d0 =>
        rw [hp] at hd
        simp only [Option.map_some', Option.some.injEq] at hd
        rw [← hd] at hu
        exact absurd hu (by simp)
  · rw [getElem?_setInUse_ne pool bd i false hi, ← hiff i]
    simp [hi]

theorem PoolInv.bounds {depth : Nat} {pool : List BufferDescriptor} {current : Nat}
    {posted : List Nat} (hinv : PoolInv depth pool current posted) :
    inUseCount pool ≤ depth ∧ posted.length ≤ depth := by
  obtain ⟨hlen, _, hnd, hiff⟩ := hinv
  refine ⟨hlen ▸ List.countP_le_length _, ?_⟩
  have hsub : posted ⊆ List.range depth := by
    intro i hi
    obtain ⟨d, hd, _⟩ := (hiff i).mp hi
    have : i < pool.length := (List.getElem?_eq_some.mp hd).1
    exact List.mem_range.mpr (hlen ▸ this)
  simpa using (List.subperm_of_subset hnd hsub).length_le

theorem takeSlot_none_of_full {depth : Nat} {pool : List BufferDescriptor} {current : Nat}
    (hlen : pool.length = depth) (hfull : inUseCount pool = depth) :
    takeSlot depth pool current = none := by
  apply takeSlot_none_of_inUse
  intro d hd
  have hall : ∀ a ∈ pool, a.inUse = true :=
    List.countP_eq_length.mp (by rw [← hlen] at hfull; exact hfull)
  exact hall d (List.mem_iff_getElem?.mpr ⟨current, hd⟩)

theorem newPool_length (depth base : Nat) : (InfRCTransport.newPool depth base).length = depth := by
  simp [InfRCTransport.newPool]

theorem newPool_free (depth base i : Nat) (d : BufferDescriptor)
    (h : (InfRCTransport.newPool depth base)[i]? = some d) : d.inUse = false := by
  have hm : d ∈ InfRCTransport.newPool depth base := List.mem_iff_getElem?.mpr ⟨i, h⟩
  simp only [InfRCTransport.newPool, List.mem_map] at hm
  obtain ⟨j, _, rfl⟩ := hm
  rfl

theorem PoolInv.newPool (depth base : Nat) (hd : 0 < depth) :
    PoolInv depth (InfRCTransport.newPool depth base) 0 [] := by
  refine ⟨newPool_length depth base, hd, List.nodup_nil, fun i => ?_⟩
  constructor
  · intro h
    exact absurd h (by simp)
  · rintro ⟨d, hd, hu⟩
    rw [newPool_free depth base i d hd] at hu
    exact absurd hu (by simp)

/-! ## Queue pairs and the registry -/

theorem QueuePair.plumb_ctor (port : Int) (pd srq txcq rxcq qpNum psn : Nat)
    (qpt : QueuePairTuple) :
    ∃ r, (QueuePair.ctor port pd srq txcq rxcq qpNum psn).plumb qpt = some r ∧
      r.getLocalQpNumber = toUint32 qpNum ∧ r.getInitialPsn = toUint32 psn ∧
      r.state = .READY ∧ r.getRemoteQpNumber = qpt.getQpn ∧ r.getRemoteLid = qpt.getLid :=
  ⟨_, rfl, rfl, rfl, rfl, rfl, rfl⟩

theorem QueuePair.plumb_ready (q : QueuePair) (qpt : QueuePairTuple) (h : q.state = .READY) :
    q.plumb qpt = none := by
  unfold QueuePair.state at h
  unfold QueuePair.plumb
  rw [h]

namespace InfRCTransport

theorem lookupQp_mem (t : InfRCTransport) (k : Nat) (q : QueuePair)
    (h : t.lookupQp k = some q) : (k, q) ∈ t.queuePairMap := by
  unfold lookupQp at h
  cases hf : t.queuePairMap.find? (fun p => p.1 == k) with
  | none => rw [hf] at h; exact absurd h (by simp)
  | some p =>
    rw [hf] at h
    simp only [Option.map_some', Option.some.injEq] at h
    have hk : p.1 = k := by simpa using List.find?_some hf
    have hm : p ∈ t.queuePairMap := List.mem_of_find?_eq_some hf
    have hp : p = (k, q) := Prod.ext hk h
    rw [← hp]
    exact hm

theorem lookupQp_registerQp (t : InfRCTransport) (k : Nat) (q : QueuePair) :
    (t.registerQp k q).lookupQp k = some q := by
  simp [lookupQp, registerQp]

theorem RegistryInv.register {m : List (Nat × QueuePair)} (h : RegistryInv m) (q : QueuePair)
    (hq : q.state = .READY) :
    RegistryInv ((q.getLocalQpNumber, q) :: m.filter fun p => p.1 != q.getLocalQpNumber) := by
  obtain ⟨hnd, hall⟩ := h
  constructor
  · rw [List.map_cons, List.nodup_cons]
    constructor
    · intro hmem
      obtain ⟨p, hp, hk⟩ := List.mem_map.mp hmem
      have := (List.mem_filter.mp hp).2
      simp [hk] at this
    · exact hnd.sublist ((List.filter_sublist m).map Prod.fst)
  · intro p hp
    rcases List.mem_cons.mp hp with rfl | hp
    · exact ⟨rfl, hq⟩
    · exact hall p (List.mem_filter.mp hp).1

/-! ## The invariant holds in every reachable state -/

theorem Inv.ctor (lid : Nat) (port udp : Int) : (ctor lid port udp).Inv :=
  ⟨PoolInv.newPool _ _ (by decide), PoolInv.newPool _ _ (by decide),
    ⟨List.nodup_nil, fun _ hp => absurd hp (by simp [InfRCTransport.ctor])⟩,
    toUint16_lt (lid : Int)⟩

theorem Inv.postReceive {t : InfRCTransport} (h : t.Inv) : t.postReceive.Inv := by
  unfold InfRCTransport.postReceive
  split
  · rename_i bd next hs
    exact ⟨h.1.post hs, h.2.1, h.2.2.1, h.2.2.2⟩
  · exact h

theorem Inv.completeRx {t : InfRCTransport} (h : t.Inv) (bd : Nat) : (t.completeRx bd).Inv := by
  unfold InfRCTransport.completeRx
  split
  · exact ⟨h.1.complete bd, h.2.1, h.2.2.1, h.2.2.2⟩
  · exact h

theorem Inv.completeTx {t : InfRCTransport} (h : t.Inv) (bd : Nat) : (t.completeTx bd).Inv := by
  unfold InfRCTransport.completeTx
  split
  · exact ⟨h.1, h.2.1.complete bd, h.2.2.1, h.2.2.2⟩
  · exact h

theorem sendOn_cases (t : InfRCTransport) (qp : QueuePair) (payload : List Nat) :
    (MAX_RPC_SIZE < payload.length ∧ t.sendOn qp payload = (.rejectedTooLarge, t)) ∨
    (payload.length ≤ MAX_RPC_SIZE ∧ qp.state ≠ .READY ∧
      t.sendOn qp payload = (.notReady, t)) ∨
    (payload.length ≤ MAX_RPC_SIZE ∧ qp.state = .READY ∧
      takeSlot MAX_TX_QUEUE_DEPTH t.txBuffers t.currentTxBuffer = none ∧
      t.sendOn qp payload = (.wouldBlock, t)) ∨
    (payload.length ≤ MAX_RPC_SIZE ∧ qp.state = .READY ∧
      ∃ bd next, takeSlot MAX_TX_QUEUE_DEPTH t.txBuffers t.currentTxBuffer = some (bd, next) ∧
        t.sendOn qp payload
          = (.posted bd, ibPostSend { t with currentTxBuffer := next } qp bd payload)) := by
  unfold sendOn
  by_cases hbig : MAX_RPC_SIZE < payload.length
  · exact Or.inl ⟨hbig, by rw [if_pos hbig]⟩
  · rw [if_neg hbig]
    by_cases hr : qp.state ≠ .READY
    · exact Or.inr (Or.inl ⟨by omega, hr, by rw [if_pos hr]⟩)
    · rw [if_neg hr]
      have hr' : qp.state = .READY := by simpa using hr
      cases hs : takeSlot MAX_TX_QUEUE_DEPTH t.txBuffers t.currentTxBuffer with
      | none => exact Or.inr (Or.inr (Or.inl ⟨by omega, hr', rfl, rfl⟩))
      | some r => exact Or.inr (Or.inr (Or.inr ⟨by omega, hr', r.1, r.2, rfl, rfl⟩))

theorem Inv.sendOn {t : InfRCTransport} (h : t.Inv) (qp : QueuePair) (payload : List Nat) :
    (t.sendOn qp payload).2.Inv := by
  rcases sendOn_cases t qp payload with ⟨_, e⟩ | ⟨_, _, e⟩ | ⟨_, _, _, e⟩ | ⟨_, _, bd, next, hs, e⟩
  · rw [e]; exact h
  · rw [e]; exact h
  · rw [e]; exact h
  · rw [e]
    exact ⟨h.1, h.2.1.post hs, h.2.2.1, h.2.2.2⟩

theorem serverTrySetupQueuePair_eq (t : InfRCTransport) (bo : ByteOrder) (datagram : List Nat)
    (qpNum psn : Nat) (r : InfRCTransport × List Nat)
    (h : t.serverTrySetupQueuePair bo datagram qpNum psn = some r) :
    ∃ peer q, QueuePairTuple.fromBytes bo datagram = some peer ∧
      (QueuePair.ctor t.ibPhysicalPort t.pd t.srq t.txcq t.rxcq qpNum psn).plumb peer = some q ∧
      r.1 = t.registerQp q.getLocalQpNumber q ∧
      r.2 = (t.localTuple
        (QueuePair.ctor t.ibPhysicalPort t.pd t.srq t.txcq t.rxcq qpNum psn)).toBytes bo := by
  unfold serverTrySetupQueuePair at h
  cases hf : QueuePairTuple.fromBytes bo datagram with
  | none => rw [hf] at h; exact absurd h (by simp)
  | some peer =>
    rw [hf] at h
    obtain ⟨q, hq, _⟩ := QueuePair.plumb_ctor t.ibPhysicalPort t.pd t.srq t.txcq t.rxcq qpNum psn peer
    simp only [Option.some_bind, hq, Option.map_some', Option.some.injEq] at h
    exact ⟨peer, q, rfl, hq, by rw [← h], by rw [← h]⟩

theorem Inv.serverSetup {t : InfRCTransport} (h : t.Inv) (bo : ByteOrder) (datagram : List Nat)
    (qpNum psn : Nat) (r : InfRCTransport × List Nat)
    (hr : t.serverTrySetupQueuePair bo datagram qpNum psn = some r) : r.1.Inv := by
  obtain ⟨peer, q, _, hq, h1, _⟩ := serverTrySetupQueuePair_eq t bo datagram qpNum psn r hr
  obtain ⟨q', hq', _, _, hready, _⟩ :=
    QueuePair.plumb_ctor t.ibPhysicalPort t.pd t.srq t.txcq t.rxcq qpNum psn peer
  rw [hq] at hq'
  cases hq'
  rw [h1]
  exact ⟨h.1, h.2.1, RegistryInv.register h.2.2.1 q hready, h.2.2.2⟩

theorem Inv.apply {t : InfRCTransport} (h : t.Inv) (e : Event) : (t.apply e).Inv := by
  cases e with
  | postReceive => exact h.postReceive
  | completeRx bd => exact h.completeRx bd
  | completeTx bd => exact h.completeTx bd
  | clientSend qp payload => exact h.sendOn qp payload
  | sendReply rpc => exact h.sendOn rpc.qp rpc.replyPayload
  | serverSetup bo datagram qpNum psn =>
    show (match t.serverTrySetupQueuePair bo datagram qpNum psn with
      | some r => r.1
      | none => t).Inv
    split
    · rename_i r hr
      exact h.serverSetup bo datagram qpNum psn r hr
    · exact h

theorem Inv.run {t : InfRCTransport} (h : t.Inv) (events : List Event) : (t.run events).Inv := by
  induction events generalizing t with
  | nil => exact h
  | cons e es ih => exact ih (h.apply e)

theorem Reachable.inv {t : InfRCTransport} (h : t.Reachable) : t.Inv := by
  obtain ⟨lid, port, udp, events, rfl⟩ := h
  exact (Inv.ctor lid port udp).run events

theorem Reachable.after_event {t : InfRCTransport} (h : t.Reachable) (e : Event) :
    (t.apply e).Reachable := by
  obtain ⟨lid, port, udp, events, rfl⟩ := h
  exact ⟨lid, port, udp, events ++ [e], by simp [InfRCTransport.run, List.foldl_append]⟩

end InfRCTransport

namespace InfRCTransport

theorem takeSlot_fresh {depth : Nat} {pool : List BufferDescriptor} {current : Nat}
    {posted : List Nat} (hinv : PoolInv depth pool current posted) {bd next : Nat}
    (h : takeSlot depth pool current = some (bd, next)) :
    bd ∉ posted ∧ ∃ d, pool[bd]? = some d ∧ d.inUse = false := by
  obtain ⟨rfl, _, d, hd, hfree⟩ := takeSlot_eq_some depth pool current bd next h
  refine ⟨fun hmem => ?_, d, hd, hfree⟩
  obtain ⟨d', hd', hu⟩ := (hinv.2.2.2 bd).mp hmem
  rw [hd] at hd'
  cases hd'
  rw [hfree] at hu
  exact absurd hu (by simp)

theorem sendOn_posted {t : InfRCTransport} {qp : QueuePair} {payload : List Nat} {bd : Nat}
    (h : (t.sendOn qp payload).1 = .posted bd) :
    ∃ next, takeSlot MAX_TX_QUEUE_DEPTH t.txBuffers t.currentTxBuffer = some (bd, next) := by
  rcases sendOn_cases t qp payload with ⟨_, e⟩ | ⟨_, _, e⟩ | ⟨_, _, _, e⟩ | ⟨_, _, b, n, hs, e⟩
  · rw [e] at h; exact absurd h (by simp)
  · rw [e] at h; exact absurd h (by simp)
  · rw [e] at h; exact absurd h (by simp)
  · rw [e] at h
    simp only [SendResult.posted.injEq] at h
    exact ⟨n, h ▸ hs⟩

theorem sendOn_blocked {t : InfRCTransport} (qp : QueuePair) (payload : List Nat)
    (h : takeSlot MAX_TX_QUEUE_DEPTH t.txBuffers t.currentTxBuffer = none) :
    (t.sendOn qp payload).2 = t ∧ ∀ bd, (t.sendOn qp payload).1 ≠ .posted bd := by
  rcases sendOn_cases t qp payload with ⟨_, e⟩ | ⟨_, _, e⟩ | ⟨_, _, _, e⟩ | ⟨_, _, b, n, hs, _⟩
  · rw [e]; exact ⟨rfl, fun bd => by simp⟩
  · rw [e]; exact ⟨rfl, fun bd => by simp⟩
  · rw [e]; exact ⟨rfl, fun bd => by simp⟩
  · rw [h] at hs; exact absurd hs (by simp)

theorem sendOn_full {t : InfRCTransport} (qp : QueuePair) (payload : List Nat)
    (hsize : payload.length ≤ MAX_RPC_SIZE) (hready : qp.state = .READY) {bd next : Nat}
    (hs : takeSlot MAX_TX_QUEUE_DEPTH t.txBuffers t.currentTxBuffer = some (bd, next)) :
    t.sendOn qp payload
      = (.posted bd, ibPostSend { t with currentTxBuffer := next } qp bd payload) := by
  rcases sendOn_cases t qp payload with ⟨h, _⟩ | ⟨_, h, _⟩ | ⟨_, _, h, _⟩ | ⟨_, _, b, n, h, e⟩
  · omega
  · exact absurd hready h
  · rw [h] at hs; exact absurd hs (by simp)
  · rw [h] at hs
    simp only [Option.some.injEq, Prod.mk.injEq] at hs
    rw [e, hs.1, hs.2]

theorem sendOn_over (t : InfRCTransport) (qp : QueuePair) (payload : List Nat)
    (h : MAX_RPC_SIZE + 1 ≤ payload.length) : t.sendOn qp payload = (.rejectedTooLarge, t) := by
  unfold sendOn
  rw [if_pos (by omega)]

theorem sendOn_not_rejected (t : InfRCTransport) (qp : QueuePair) (payload : List Nat)
    (h : payload.length ≤ MAX_RPC_SIZE) : (t.sendOn qp payload).1 ≠ .rejectedTooLarge := by
  rcases sendOn_cases t qp payload with ⟨h', _⟩ | ⟨_, _, e⟩ | ⟨_, _, _, e⟩ | ⟨_, _, b, n, _, e⟩
  · omega
  · rw [e]; simp
  · rw [e]; simp
  · rw [e]; simp

end InfRCTransport

/-- C3: `clientSend` and `sendReply` reject every payload of `MAX_RPC_SIZE + 1`
bytes or more before any post is made: the transport (pools, round-robin
indices, registry, adapter queues and the log of posts) is exactly as before,
so a later send behaves as if the rejected one had not happened. A payload of
exactly `MAX_RPC_SIZE` bytes is not rejected, and on a `READY` queue pair with
a free transmit slot it is posted whole from that slot. -/
theorem InfRCTransport.payload_size_boundary (t : InfRCTransport) (qp : QueuePair)
    (full over : List Nat)
    (hfull : full.length = MAX_RPC_SIZE) (hover : MAX_RPC_SIZE + 1 ≤ over.length) :
    t.clientSend qp over = (.rejectedTooLarge, t) ∧
    t.sendReply ⟨qp, over⟩ = (.rejectedTooLarge, t) ∧
    (t.clientSend qp over).2.posts = t.posts ∧
    (t.sendReply ⟨qp, over⟩).2.posts = t.posts ∧
    (t.clientSend qp over).2.clientSend qp full = t.clientSend qp full ∧
    (t.sendReply ⟨qp, over⟩).2.sendReply ⟨qp, full⟩ = t.sendReply ⟨qp, full⟩ ∧
    (t.clientSend qp full).1 ≠ .rejectedTooLarge ∧
    (t.sendReply ⟨qp, full⟩).1 ≠ .rejectedTooLarge ∧
    (qp.state = .READY → ∀ bd next,
      takeSlot MAX_TX_QUEUE_DEPTH t.txBuffers t.currentTxBuffer = some (bd, next) →
        (t.clientSend qp full).1 = .posted bd ∧
        (t.clientSend qp full).2.posts = t.posts ++ [.send qp.getLocalQpNumber bd full] ∧
        (t.sendReply ⟨qp, full⟩).1 = .posted bd ∧
        (t.sendReply ⟨qp, full⟩).2.posts = t.posts ++ [.send qp.getLocalQpNumber bd full]) := by
  have e1 : t.clientSend qp over = (.rejectedTooLarge, t) :=
    InfRCTransport.sendOn_over t qp over hover
  have e2 : t.sendReply ⟨qp, over⟩ = (.rejectedTooLarge, t) :=
    InfRCTransport.sendOn_over t qp over hover
  refine ⟨e1, e2, by rw [e1], by rw [e2], by rw [e1], by rw [e2],
    InfRCTransport.sendOn_not_rejected t qp full (by omega),
    InfRCTransport.sendOn_not_rejected t qp full (by omega), ?_⟩
  intro hready bd next hs
  have e3 := InfRCTransport.sendOn_full (t := t) qp full (by omega) hready hs
  have e4 : t.clientSend qp full = t.sendOn qp full := rfl
  have e5 : t.sendReply ⟨qp, full⟩ = t.sendOn qp full := rfl
  rw [e4, e5, e3]
  exact ⟨rfl, rfl, rfl, rfl⟩

/-- Witness for C3: a newly constructed transport, a `READY` queue pair, a
payload of `MAX_RPC_SIZE` zero bytes and one of `MAX_RPC_SIZE + 1`. -/
theorem InfRCTransport.payload_size_boundary_witness :
    (InfRCTransport.ctor 7 1 0).clientSend sampleReadyQp
        (List.replicate (MAX_RPC_SIZE + 1) 0)
      = (.rejectedTooLarge, InfRCTransport.ctor 7 1 0) ∧
    ((InfRCTransport.ctor 7 1 0).clientSend sampleReadyQp
        (List.replicate MAX_RPC_SIZE 0)).1 = .posted 0 :=
  have h := InfRCTransport.payload_size_boundary (InfRCTransport.ctor 7 1 0) sampleReadyQp
    (List.replicate MAX_RPC_SIZE 0) (List.replicate (MAX_RPC_SIZE + 1) 0)
    (List.length_replicate _ _) (by rw [List.length_replicate])
  ⟨h.1, (h.2.2.2.2.2.2.2.2 (by decide) 0 1 (by decide)).1⟩

/-- C5: in every reachable state each descriptor pool has its fixed capacity
of 64 descriptors, at most 64 of them in use and at most 64 posted and not yet
completed; the operation that takes the next round-robin slot hands out only a
descriptor that is not in use and not posted, and so does every send; when all
64 descriptors of a pool are in use the operation hands out nothing and the
caller's post does not happen. -/
theorem InfRCTransport.pools_bounded_no_reuse (t : InfRCTransport) (h : t.Reachable) :
    MAX_SHARED_RX_QUEUE_DEPTH = 64 ∧ MAX_TX_QUEUE_DEPTH = 64 ∧
    t.rxBuffers.length = 64 ∧ t.txBuffers.length = 64 ∧
    inUseCount t.rxBuffers ≤ 64 ∧ inUseCount t.txBuffers ≤ 64 ∧
    t.srqPosted.length ≤ 64 ∧ t.txPosted.length ≤ 64 ∧
    (∀ bd next,
      takeSlot MAX_SHARED_RX_QUEUE_DEPTH t.rxBuffers t.currentRxBuffer = some (bd, next) →
        bd ∉ t.srqPosted ∧ ∃ d, t.rxBuffers[bd]? = some d ∧ d.inUse = false) ∧
    (∀ bd next,
      takeSlot MAX_TX_QUEUE_DEPTH t.txBuffers t.currentTxBuffer = some (bd, next) →
        bd ∉ t.txPosted ∧ ∃ d, t.txBuffers[bd]? = some d ∧ d.inUse = false) ∧
    (∀ qp payload bd, (t.clientSend qp payload).1 = .posted bd →
        bd ∉ t.txPosted ∧ ∃ d, t.txBuffers[bd]? = some d ∧ d.inUse = false) ∧
    (∀ rpc bd, (t.sendReply rpc).1 = .posted bd →
        bd ∉ t.txPosted ∧ ∃ d, t.txBuffers[bd]? = some d ∧ d.inUse = false) ∧
    (inUseCount t.rxBuffers = 64 →
      takeSlot MAX_SHARED_RX_QUEUE_DEPTH t.rxBuffers t.currentRxBuffer = none ∧
      t.postReceive = t) ∧
    (inUseCount t.txBuffers = 64 →
      takeSlot MAX_TX_QUEUE_DEPTH t.txBuffers t.currentTxBuffer = none ∧
      (∀ qp payload, (t.clientSend qp payload).2 = t ∧
        ∀ bd, (t.clientSend qp payload).1 ≠ .posted bd) ∧
      (∀ rpc, (t.sendReply rpc).2 = t ∧ ∀ bd, (t.sendReply rpc).1 ≠ .posted bd)) := by
  obtain ⟨hrx, htx, _, _⟩ := h.inv
  have drx : MAX_SHARED_RX_QUEUE_DEPTH = 64 := by decide
  have dtx : MAX_TX_QUEUE_DEPTH = 64 := by decide
  refine ⟨drx, dtx, drx ▸ hrx.1, dtx ▸ htx.1, drx ▸ hrx.bounds.1, dtx ▸ htx.bounds.1,
    drx ▸ hrx.bounds.2, dtx ▸ htx.bounds.2, ?_, ?_, ?_, ?_, ?_, ?_⟩
  · intro bd next hs
    exact InfRCTransport.takeSlot_fresh hrx hs
  · intro bd next hs
    exact InfRCTransport.takeSlot_fresh htx hs
  · intro qp payload bd hp
    obtain ⟨next, hs⟩ := InfRCTransport.sendOn_posted hp
    exact InfRCTransport.takeSlot_fresh htx hs
  · intro rpc bd hp
    obtain ⟨next, hs⟩ := InfRCTransport.sendOn_posted hp
    exact InfRCTransport.takeSlot_fresh htx hs
  · intro hfull
    have hn : takeSlot MAX_SHARED_RX_QUEUE_DEPTH t.rxBuffers t.currentRxBuffer = none :=
      takeSlot_none_of_full hrx.1 (drx ▸ hfull)
    refine ⟨hn, ?_⟩
    unfold InfRCTransport.postReceive
    rw [hn]
  · intro hfull
    have hn : takeSlot MAX_TX_QUEUE_DEPTH t.txBuffers t.currentTxBuffer = none :=
      takeSlot_none_of_full htx.1 (dtx ▸ hfull)
    exact ⟨hn, fun qp payload => InfRCTransport.sendOn_blocked qp payload hn,
      fun rpc => InfRCTransport.sendOn_blocked rpc.qp rpc.replyPayload hn⟩

set_option maxRecDepth 100000 in
/-- Witness for C5: after 64 sends and 64 receives have been posted and none
has completed, all descriptors of both pools are in use, no slot is handed
out, and a further send or receive post leaves the transport as it is. -/
theorem InfRCTransport.pools_bounded_no_reuse_witness :
    sampleSaturated.Reachable ∧
    inUseCount sampleSaturated.txBuffers = 64 ∧
    inUseCount sampleSaturated.rxBuffers = 64 ∧
    takeSlot MAX_TX_QUEUE_DEPTH sampleSaturated.txBuffers sampleSaturated.currentTxBuffer
      = none ∧
    (sampleSaturated.clientSend sampleReadyQp [1]).2 = sampleSaturated ∧
    sampleSaturated.postReceive = sampleSaturated := by
  have hr : sampleSaturated.Reachable := ⟨7, 1, 0, _, rfl⟩
  have h := InfRCTransport.pools_bounded_no_reuse sampleSaturated hr
  have ctx : inUseCount sampleSaturated.txBuffers = 64 := by decide
  have crx : inUseCount sampleSaturated.rxBuffers = 64 := by decide
  have htx := h.2.2.2.2.2.2.2.2.2.2.2.2.2 ctx
  have hrx := h.2.2.2.2.2.2.2.2.2.2.2.2.1 crx
  exact ⟨hr, ctx, crx, htx.1, (htx.2.1 sampleReadyQp [1]).1, hrx.2⟩

/-! ## Connection setup -/

theorem InfRCTransport.handshake_eq (bo : ByteOrder) (client server : InfRCTransport)
    (cq cp sq sp : Nat) :
    ∃ cqp sqp r,
      server.serverTrySetupQueuePair bo
        (client.clientSetupSend bo cq cp).2 sq sp = some r ∧
      r.1 = server.registerQp sqp.getLocalQpNumber sqp ∧
      QueuePairTuple.fromBytes bo (client.clientSetupSend bo cq cp).2
        = some (QueuePairTuple.ctor client.ibLid (toUint32 cq) (toUint32 cp)) ∧
      QueuePairTuple.fromBytes bo r.2
        = some (QueuePairTuple.ctor server.ibLid (toUint32 sq) (toUint32 sp)) ∧
      InfRCTransport.handshake bo client server cq cp sq sp = some (cqp, r.1) ∧
      cqp.getLocalQpNumber = toUint32 cq ∧ cqp.getInitialPsn = toUint32 cp ∧
      cqp.state = .READY ∧
      cqp.getRemoteQpNumber = toUint32 (toUint32 sq) ∧
      cqp.getRemoteLid = toUint16 server.ibLid ∧
      sqp.getLocalQpNumber = toUint32 sq ∧ sqp.getInitialPsn = toUint32 sp ∧
      sqp.state = .READY ∧
      sqp.getRemoteQpNumber = toUint32 (toUint32 cq) ∧
      sqp.getRemoteLid = toUint16 client.ibLid := by
  have rt1 := QueuePairTuple.fromBytes_toBytes bo
    (client.localTuple (QueuePair.ctor client.ibPhysicalPort client.pd client.srq client.txcq
      client.rxcq cq cp)) (QueuePairTuple.ctor_wellTyped _ _ _)
  have rt2 := QueuePairTuple.fromBytes_toBytes bo
    (server.localTuple (QueuePair.ctor server.ibPhysicalPort server.pd server.srq server.txcq
      server.rxcq sq sp)) (QueuePairTuple.ctor_wellTyped _ _ _)
  obtain ⟨sqp, hsq, s1, s2, s3, s4, s5⟩ := QueuePair.plumb_ctor server.ibPhysicalPort server.pd
    server.srq server.txcq server.rxcq sq sp
    (client.localTuple (QueuePair.ctor client.ibPhysicalPort client.pd client.srq client.txcq
      client.rxcq cq cp))
  obtain ⟨cqp, hcq, c1, c2, c3, c4, c5⟩ := QueuePair.plumb_ctor client.ibPhysicalPort client.pd
    client.srq client.txcq client.rxcq cq cp
    (server.localTuple (QueuePair.ctor server.ibPhysicalPort server.pd server.srq server.txcq
      server.rxcq sq sp))
  have hsrv : server.serverTrySetupQueuePair bo (client.clientSetupSend bo cq cp).2 sq sp
      = some (server.registerQp sqp.getLocalQpNumber sqp,
          (server.localTuple (QueuePair.ctor server.ibPhysicalPort server.pd server.srq
            server.txcq server.rxcq sq sp)).toBytes bo) := by
    simp only [InfRCTransport.serverTrySetupQueuePair, InfRCTransport.clientSetupSend, rt1,
      Option.some_bind, hsq, Option.map_some']
  refine ⟨cqp, sqp, _, hsrv, rfl, rt1, rt2, ?_, c1, c2, c3, c4, c5, s1, s2, s3, s4, s5⟩
  have hsrv' := hsrv
  simp only [InfRCTransport.clientSetupSend] at hsrv'
  simp only [InfRCTransport.handshake, InfRCTransport.clientSetupSend, hsrv', Option.some_bind,
    InfRCTransport.clientSetupFinish, rt2, hcq, Option.map_some']

/-- C6: for a client at address `cl` whose new queue pair gets number `cq` and
initial sequence number `cp`, and a server (in any reachable state) at address
`sl` whose new queue pair gets `sq` and `sp`, the setup exchange carries the
tuples `{cq, cp, cl}` and `{sq, sp, sl}`; afterwards the client's queue pair is
`READY` and reports remote number `sq` and remote address `sl`, and the
server's registry holds the server's new queue pair under `sq`, its own local
number, and not under the remote number `cq`. In every reachable state, before
and after, every registry entry's key equals `getLocalQpNumber()` of the queue
pair it maps to. The scenario of the claim is `cl = 3, cq = 5, cp = 100,
sl = 7, sq = 9, sp = 200`. -/
theorem InfRCTransport.registry_keyed_by_local_qpn (bo : ByteOrder)
    (client server : InfRCTransport) (cl cq cp sl sq sp : Nat)
    (hs : server.Reachable) (hcl : client.ibLid = cl) (hsl : server.ibLid = sl)
    (bcl : cl < 65536) (bcq : cq < 4294967296) (bcp : cp < 4294967296)
    (bsq : sq < 4294967296) (bsp : sp < 4294967296) :
    (∀ k q, (k, q) ∈ server.queuePairMap → k = q.getLocalQpNumber) ∧
    (∀ k q, server.lookupQp k = some q → k = q.getLocalQpNumber) ∧
    ∃ cqp sqp sv' reply,
      QueuePairTuple.fromBytes bo (client.clientSetupSend bo cq cp).2 = some ⟨cq, cp, cl⟩ ∧
      server.serverTrySetupQueuePair bo (client.clientSetupSend bo cq cp).2 sq sp
        = some (sv', reply) ∧
      QueuePairTuple.fromBytes bo reply = some ⟨sq, sp, sl⟩ ∧
      InfRCTransport.handshake bo client server cq cp sq sp = some (cqp, sv') ∧
      cqp.getLocalQpNumber = cq ∧ cqp.getInitialPsn = cp ∧ cqp.state = .READY ∧
      cqp.getRemoteQpNumber = sq ∧ cqp.getRemoteLid = sl ∧
      sv'.lookupQp sq = some sqp ∧
      sqp.getLocalQpNumber = sq ∧ sqp.getInitialPsn = sp ∧ sqp.state = .READY ∧
      sqp.getRemoteQpNumber = cq ∧ sqp.getRemoteLid = cl ∧
      (cq ≠ sq → sv'.lookupQp cq ≠ some sqp) ∧
      sv'.Reachable ∧
      (∀ k q, (k, q) ∈ sv'.queuePairMap → k = q.getLocalQpNumber) ∧
      (∀ k q, sv'.lookupQp k = some q → k = q.getLocalQpNumber) := by
  have bsl : sl < 65536 := hsl ▸ hs.inv.2.2.2
  have keyed : ∀ t : InfRCTransport, t.Reachable →
      ∀ k q, (k, q) ∈ t.queuePairMap → k = q.getLocalQpNumber :=
    fun t ht k q hm => (ht.inv.2.2.1.2 (k, q) hm).1
  have keyed' : ∀ t : InfRCTransport, t.Reachable →
      ∀ k q, t.lookupQp k = some q → k = q.getLocalQpNumber :=
    fun t ht k q hl => keyed t ht k q (InfRCTransport.lookupQp_mem t k q hl)
  refine ⟨keyed server hs, keyed' server hs, ?_⟩
  obtain ⟨cqp, sqp, r, hsrv, hr1, d1, d2, hh, c1, c2, c3, c4, c5, s1, s2, s3, s4, s5⟩ :=
    InfRCTransport.handshake_eq bo client server cq cp sq sp
  have ucq : toUint32 cq = cq := toUint32_of_lt cq bcq
  have ucp : toUint32 cp = cp := toUint32_of_lt cp bcp
  have usq : toUint32 sq = sq := toUint32_of_lt sq bsq
  have usp : toUint32 sp = sp := toUint32_of_lt sp bsp
  have ucl : toUint16 cl = cl := toUint16_of_lt cl bcl
  have usl : toUint16 sl = sl := toUint16_of_lt sl bsl
  have hreach : r.1.Reachable := by
    have := hs.after_event (.serverSetup bo (client.clientSetupSend bo cq cp).2 sq sp)
    simpa [InfRCTransport.apply, hsrv] using this
  have t1 : QueuePairTuple.ctor client.ibLid (toUint32 cq) (toUint32 cp) = ⟨cq, cp, cl⟩ := by
    simp only [QueuePairTuple.ctor, hcl, ucq, ucp, ucl]
  have t2 : QueuePairTuple.ctor server.ibLid (toUint32 sq) (toUint32 sp) = ⟨sq, sp, sl⟩ := by
    simp only [QueuePairTuple.ctor, hsl, usq, usp, usl]
  have hlook : r.1.lookupQp sq = some sqp := by
    rw [hr1, s1, usq]
    exact InfRCTransport.lookupQp_registerQp server sq sqp
  refine ⟨cqp, sqp, r.1, r.2, by rw [d1, t1], hsrv, by rw [d2, t2], hh,
    by rw [c1, ucq], by rw [c2, ucp], c3, by rw [c4, usq, usq], by rw [c5, hsl, usl],
    hlook, by rw [s1, usq], by rw [s2, usp], s3, by rw [s4, ucq, ucq], by rw [s5, hcl, ucl],
    ?_, hreach, keyed r.1 hreach, keyed' r.1 hreach⟩
  intro hne hl
  have := keyed' r.1 hreach cq sqp hl
  rw [s1, usq] at this
  exact hne this

/-- Witness for C6, the scenario of the claim: client tuple
`{qpn = 5, psn = 100, lid = 3}`, server tuple `{qpn = 9, psn = 200, lid = 7}`,
newly constructed transports, little-endian hosts. -/
theorem InfRCTransport.registry_keyed_by_local_qpn_witness :
    (InfRCTransport.ctor 7 1 0).Reachable ∧
    ((InfRCTransport.handshake .littleEndian (InfRCTransport.ctor 3 1 0)
        (InfRCTransport.ctor 7 1 0) 5 100 9 200).map fun r =>
      (r.1.getRemoteQpNumber, r.1.getRemoteLid, r.2.queuePairMap.map Prod.fst,
        (r.2.lookupQp 9).map QueuePair.getLocalQpNumber, r.2.lookupQp 5))
      = some (9, 7, [9], some 9, none) ∧
    ∃ cqp sqp sv',
      InfRCTransport.handshake .littleEndian (InfRCTransport.ctor 3 1 0)
        (InfRCTransport.ctor 7 1 0) 5 100 9 200 = some (cqp, sv') ∧
      cqp.getRemoteQpNumber = 9 ∧ cqp.getRemoteLid = 7 ∧
      sv'.lookupQp 9 = some sqp ∧ sqp.getLocalQpNumber = 9 ∧
      sv'.lookupQp 5 ≠ some sqp := by
  have hr : (InfRCTransport.ctor 7 1 0).Reachable := ⟨7, 1, 0, [], rfl⟩
  obtain ⟨_, _, cqp, sqp, sv', _, _, _, _, hh, _, _, _, c4, c5, hl, s1, _, _, _, _, hn, _⟩ :=
    InfRCTransport.registry_keyed_by_local_qpn .littleEndian (InfRCTransport.ctor 3 1 0)
      (InfRCTransport.ctor 7 1 0) 3 5 100 7 9 200 hr (by decide) (by decide) (by decide)
      (by decide) (by decide) (by decide) (by decide)
  exact ⟨hr, by decide, cqp, sqp, sv', hh, c4, c5, hl, s1, hn (by decide)⟩

/-! ## Newly constructed descriptors -/

theorem construct_not_in_use (a : BufferDescriptor.Args) :
    (BufferDescriptor.construct a).inUse = false := by
  cases a <;> rfl

theorem inUseCount_eq_zero (pool : List BufferDescriptor)
    (h : ∀ d ∈ pool, d.inUse = false) : inUseCount pool = 0 := by
  unfold inUseCount
  rw [List.countP_eq_zero]
  intro d hd
  simp [h d hd]

theorem inUseCount_defaultPool (depth : Nat) : inUseCount (defaultPool depth) = 0 := by
  apply inUseCount_eq_zero
  intro d hd
  rw [List.eq_of_mem_replicate hd]
  rfl

theorem inUseCount_constructedPool (args : List BufferDescriptor.Args) :
    inUseCount (constructedPool args) = 0 := by
  apply inUseCount_eq_zero
  intro d hd
  obtain ⟨a, _, rfl⟩ := List.mem_map.mp hd
  exact construct_not_in_use a

/-- C11: every newly constructed `BufferDescriptor` is not in use: for every
buffer, memory-region handle and id, `BufferDescriptor(buffer, mr, id)` has
`inUse = false` (and holds the buffer and handle given); the default-constructed
descriptor has `inUse = false`, null `buffer`, null `mr` and `id` 0; so a pool
of `depth` descriptors that have just been constructed, by either constructor,
has `depth` descriptors and none in use, in particular the default-constructed
receive and transmit arrays of 64. -/
theorem BufferDescriptor.new_not_in_use (buffer mr id depth : Nat)
    (args : List BufferDescriptor.Args) :
    (BufferDescriptor.ctor buffer mr id).inUse = false ∧
    (BufferDescriptor.ctor buffer mr id).buffer = buffer ∧
    (BufferDescriptor.ctor buffer mr id).mr = mr ∧
    BufferDescriptor.ctorDefault.inUse = false ∧
    BufferDescriptor.ctorDefault.buffer = 0 ∧
    BufferDescriptor.ctorDefault.mr = 0 ∧
    BufferDescriptor.ctorDefault.id = 0 ∧
    (defaultPool depth).length = depth ∧
    inUseCount (defaultPool depth) = 0 ∧
    (constructedPool args).length = args.length ∧
    inUseCount (constructedPool args) = 0 ∧
    (defaultPool MAX_SHARED_RX_QUEUE_DEPTH).length = 64 ∧
    inUseCount (defaultPool MAX_SHARED_RX_QUEUE_DEPTH) = 0 ∧
    (defaultPool MAX_TX_QUEUE_DEPTH).length = 64 ∧
    inUseCount (defaultPool MAX_TX_QUEUE_DEPTH) = 0 :=
  ⟨rfl, rfl, rfl, rfl, rfl, rfl, rfl,
    List.length_replicate _ _, inUseCount_defaultPool depth,
    List.length_map _ _, inUseCount_constructedPool args,
    List.length_replicate _ _, inUseCount_defaultPool _,
    List.length_replicate _ _, inUseCount_defaultPool _⟩

end RAMCloud
